import Mathlib

/-!
Verification development for the OriON daily automation job
(`run_orion_daily.py` and `ops/git_ops.py`).

The Python program is shallowly embedded: every external effect
(subprocess exit codes and captured output, filesystem existence tests,
clock reads) is an input supplied by an *environment* record, and every
filesystem / version-control mutation the program performs is recorded
as an explicit event in an output *trace*.  The pure string manipulation
(URL normalisation, token injection, short-revision extraction, backup
name generation) is translated directly.
-/

/-! ## Small Python-semantics helpers

String primitives are modelled over the character list `String.data`
(rather than the byte-position-based core implementations) so that every
definition evaluates on concrete inputs by kernel reduction; the
semantics on Unicode code points is the same. -/

/-- Model of Python `s.strip()`: remove whitespace from both ends. -/
def strTrim (s : String) : String :=
  String.mk (((s.data.dropWhile Char.isWhitespace).reverse.dropWhile Char.isWhitespace).reverse)

/-- Does the character list `l` start with the character list `p`? -/
def listStartsWith : List Char → List Char → Bool
  | _, [] => true
  | [], _ :: _ => false
  | a :: as, b :: bs => a == b && listStartsWith as bs

/-- Model of Python `s.startswith(p)`. -/
def strStartsWith (s p : String) : Bool :=
  listStartsWith s.data p.data

/-- Model of Python slicing `s[n:]`. -/
def strDrop (s : String) (n : Nat) : String :=
  String.mk (s.data.drop n)

/-- Model of Python slicing `s[:n]`. -/
def strTake (s : String) (n : Nat) : String :=
  String.mk (s.data.take n)

/-- Model of Python `s.lower()`. -/
def strToLower (s : String) : String :=
  String.mk (s.data.map Char.toLower)

/-- Model of the Python expression `a or b` on strings: the empty string is
falsy, so the result is `b` when `a` is empty and `a` otherwise. -/
def pyOr (a b : String) : String :=
  if a = "" then b else a

/-- Model of `s.split()[0]` on a stripped non-empty string: the first maximal
run of non-whitespace characters. -/
def firstToken (s : String) : String :=
  String.mk ((strTrim s).data.takeWhile (fun c => !c.isWhitespace))

/-! ## Decimal rendering of naturals

Python renders integers in f-strings in decimal.  We give a structurally
recursive decimal renderer (fuel-indexed so that it reduces by `rfl`) and
prove it injective; injectivity is what makes the backup-name collision
loop of `update_strategies_clone_swap` terminate with a fresh name. -/

/-- Little-endian decimal digits of `n`, with recursion fuel (fuel `n`
always suffices since `n / 10 < n` for `n > 0`). -/
def digitsFuel : Nat → Nat → List Nat
  | _, 0 => []
  | 0, _ + 1 => []
  | f + 1, n + 1 => ((n + 1) % 10) :: digitsFuel f ((n + 1) / 10)

/-- Little-endian decimal digits of `n`. -/
def natDigits (n : Nat) : List Nat := digitsFuel n n

/-- Evaluate a little-endian digit list back to a natural number. -/
def undigits : List Nat → Nat
  | [] => 0
  | d :: ds => d + 10 * undigits ds

theorem undigits_digitsFuel : ∀ (f n : Nat), n ≤ f → undigits (digitsFuel f n) = n := by
  intro f
  induction f with
  | zero =>
    intro n hn
    interval_cases n
    rfl
  | succ g ih =>
    intro n hn
    match n with
    | 0 => rfl
    | m + 1 =>
      have hdiv : (m + 1) / 10 < m + 1 := Nat.div_lt_self (Nat.succ_pos m) (by omega)
      have hle : (m + 1) / 10 ≤ g := by omega
      simp only [digitsFuel, undigits, ih _ hle]
      omega

theorem undigits_natDigits (n : Nat) : undigits (natDigits n) = n :=
  undigits_digitsFuel n n (Nat.le_refl n)

theorem natDigits_injective : Function.Injective natDigits := by
  intro a b h
  have := undigits_natDigits a
  rw [h, undigits_natDigits] at this
  omega

theorem digitsFuel_lt_ten : ∀ (f n : Nat), ∀ d ∈ digitsFuel f n, d < 10 := by
  intro f
  induction f with
  | zero =>
    intro n d hd
    match n with
    | 0 => simp [digitsFuel] at hd
    | m + 1 => simp [digitsFuel] at hd
  | succ g ih =>
    intro n d hd
    match n with
    | 0 => simp [digitsFuel] at hd
    | m + 1 =>
      simp only [digitsFuel, List.mem_cons] at hd
      rcases hd with h | h
      · subst h
        exact Nat.mod_lt _ (by omega)
      · exact ih _ _ h

/-- Decimal rendering of a natural number (models Python `str`/f-string of a
nonnegative integer). -/
def natRepr (n : Nat) : String :=
  if n = 0 then "0" else String.mk ((natDigits n).reverse.map Nat.digitChar)

theorem digitChar_inj_of_lt : ∀ a < 10, ∀ b < 10,
    Nat.digitChar a = Nat.digitChar b → a = b := by decide

theorem map_digitChar_inj : ∀ (l₁ l₂ : List Nat),
    (∀ d ∈ l₁, d < 10) → (∀ d ∈ l₂, d < 10) →
    l₁.map Nat.digitChar = l₂.map Nat.digitChar → l₁ = l₂ := by
  intro l₁
  induction l₁ with
  | nil =>
    intro l₂ _ _ h
    cases l₂ with
    | nil => rfl
    | cons b bs => simp at h
  | cons a as ih =>
    intro l₂ h₁ h₂ h
    cases l₂ with
    | nil => simp at h
    | cons b bs =>
      simp only [List.map_cons, List.cons.injEq] at h
      have ha : a < 10 := h₁ a (List.mem_cons_self a as)
      have hb : b < 10 := h₂ b (List.mem_cons_self b bs)
      have hab : a = b := digitChar_inj_of_lt a ha b hb h.1
      have htl : as = bs := by
        apply ih bs
        · intro d hd; exact h₁ d (List.mem_cons_of_mem a hd)
        · intro d hd; exact h₂ d (List.mem_cons_of_mem b hd)
        · exact h.2
      rw [hab, htl]

theorem natDigits_lt_ten (n : Nat) : ∀ d ∈ natDigits n, d < 10 :=
  digitsFuel_lt_ten n n

theorem natDigits_ne_nil (n : Nat) (h : n ≠ 0) : natDigits n ≠ [] := by
  intro hcon
  have := undigits_natDigits n
  rw [hcon] at this
  simp [undigits] at this
  omega

theorem reverse_map_digitChar_inj (l₁ l₂ : List Nat)
    (h₁ : ∀ d ∈ l₁, d < 10) (h₂ : ∀ d ∈ l₂, d < 10)
    (h : l₁.reverse.map Nat.digitChar = l₂.reverse.map Nat.digitChar) : l₁ = l₂ := by
  have hr₁ : ∀ d ∈ l₁.reverse, d < 10 := fun d hd => h₁ d (List.mem_reverse.mp hd)
  have hr₂ : ∀ d ∈ l₂.reverse, d < 10 := fun d hd => h₂ d (List.mem_reverse.mp hd)
  have hrev := map_digitChar_inj _ _ hr₁ hr₂ h
  have := congrArg List.reverse hrev
  simpa using this

theorem natRepr_injective : Function.Injective natRepr := by
  intro a b h
  by_cases ha : a = 0 <;> by_cases hb : b = 0
  · omega
  · exfalso
    unfold natRepr at h
    rw [if_pos ha, if_neg hb] at h
    have hdata : ['0'] = (natDigits b).reverse.map Nat.digitChar := congrArg String.data h
    have h0 : ([0] : List Nat).reverse.map Nat.digitChar = (natDigits b).reverse.map Nat.digitChar := by
      simpa using hdata
    have h01 : ([0] : List Nat) = natDigits b :=
      reverse_map_digitChar_inj _ _ (by intro d hd; simp at hd; omega) (natDigits_lt_ten b) h0
    have hu := undigits_natDigits b
    rw [← h01] at hu
    simp [undigits] at hu
    omega
  · exfalso
    unfold natRepr at h
    rw [if_neg ha, if_pos hb] at h
    have hdata : (natDigits a).reverse.map Nat.digitChar = ['0'] := congrArg String.data h
    have h0 : (natDigits a).reverse.map Nat.digitChar = ([0] : List Nat).reverse.map Nat.digitChar := by
      simpa using hdata
    have h01 : natDigits a = ([0] : List Nat) :=
      reverse_map_digitChar_inj _ _ (natDigits_lt_ten a) (by intro d hd; simp at hd; omega) h0
    have hu := undigits_natDigits a
    rw [h01] at hu
    simp [undigits] at hu
    omega
  · unfold natRepr at h
    rw [if_neg ha, if_neg hb] at h
    have hdata : (natDigits a).reverse.map Nat.digitChar = (natDigits b).reverse.map Nat.digitChar :=
      congrArg String.data h
    exact natDigits_injective (reverse_map_digitChar_inj _ _ (natDigits_lt_ten a) (natDigits_lt_ten b) hdata)

theorem natRepr_ne_empty (n : Nat) : natRepr n ≠ "" := by
  unfold natRepr
  by_cases h : n = 0
  · rw [if_pos h]
    decide
  · rw [if_neg h]
    intro hcon
    have hdata : (natDigits n).reverse.map Nat.digitChar = [] := congrArg String.data hcon
    have : (natDigits n).reverse = [] := List.map_eq_nil_iff.mp hdata
    have : natDigits n = [] := by simpa using congrArg List.reverse this
    exact natDigits_ne_nil n h this

theorem natRepr_length_pos (n : Nat) : 0 < (natRepr n).length := by
  cases hn : (natRepr n).data with
  | nil => exact absurd (String.ext (hn.trans rfl)) (natRepr_ne_empty n)
  | cons c cs =>
    have : (natRepr n).length = (natRepr n).data.length := rfl
    rw [this, hn]
    simp

/-! ## Lexicographic string order by code point

Python's `sorted` on the discovered job file names compares strings by
Unicode code point, lexicographically.  We model that order directly on
the character data and register it as a decidable, total, transitive
relation so that the standard insertion-sort lemmas apply. -/

/-- Lexicographic comparison of character lists by code point. -/
def charListLe : List Char → List Char → Bool
  | [], _ => true
  | _ :: _, [] => false
  | a :: as, b :: bs =>
    if a.toNat < b.toNat then true
    else if b.toNat < a.toNat then false
    else charListLe as bs

/-- Code-point lexicographic order on strings (models Python string `<=`). -/
def strLe (a b : String) : Bool := charListLe a.data b.data

/-- Propositional form of `strLe`. -/
def strLeP (a b : String) : Prop := strLe a b = true

instance : DecidableRel strLeP := fun a b =>
  inferInstanceAs (Decidable (strLe a b = true))

theorem charListLe_total : ∀ l₁ l₂ : List Char, charListLe l₁ l₂ = true ∨ charListLe l₂ l₁ = true := by
  intro l₁
  induction l₁ with
  | nil => intro l₂; left; rfl
  | cons a as ih =>
    intro l₂
    cases l₂ with
    | nil => right; rfl
    | cons b bs =>
      by_cases hab : a.toNat < b.toNat
      · left; simp [charListLe, hab]
      · by_cases hba : b.toNat < a.toNat
        · right; simp [charListLe, hba]
        · rcases ih bs with h | h
          · left; simp [charListLe, hab, hba, h]
          · right
            have hab' : ¬ a.toNat < b.toNat := hab
            simp [charListLe, hba, hab', h]

theorem charListLe_trans : ∀ l₁ l₂ l₃ : List Char,
    charListLe l₁ l₂ = true → charListLe l₂ l₃ = true → charListLe l₁ l₃ = true := by
  intro l₁
  induction l₁ with
  | nil => intro l₂ l₃ _ _; rfl
  | cons a as ih =>
    intro l₂ l₃ h₁₂ h₂₃
    cases l₂ with
    | nil => simp [charListLe] at h₁₂
    | cons b bs =>
      cases l₃ with
      | nil => simp [charListLe] at h₂₃
      | cons c cs =>
        simp only [charListLe] at h₁₂ h₂₃ ⊢
        by_cases hab : a.toNat < b.toNat <;> by_cases hbc : b.toNat < c.toNat
        · have : a.toNat < c.toNat := by omega
          simp [this]
        · rw [if_pos hab] at h₁₂
          rw [if_neg hbc] at h₂₃
          by_cases hcb : c.toNat < b.toNat
          · simp [hcb] at h₂₃
          · have hbc' : b.toNat = c.toNat := by omega
            have : a.toNat < c.toNat := by omega
            simp [this]
        · rw [if_neg hab] at h₁₂
          by_cases hba : b.toNat < a.toNat
          · simp [hba] at h₁₂
          · have hab' : a.toNat = b.toNat := by omega
            have : a.toNat < c.toNat := by omega
            simp [this]
        · rw [if_neg hab] at h₁₂
          rw [if_neg hbc] at h₂₃
          by_cases hba : b.toNat < a.toNat
          · simp [hba] at h₁₂
          · by_cases hcb : c.toNat < b.toNat
            · simp [hcb] at h₂₃
            · rw [if_neg hba] at h₁₂
              rw [if_neg hcb] at h₂₃
              have hac : ¬ a.toNat < c.toNat := by omega
              have hca : ¬ c.toNat < a.toNat := by omega
              rw [if_neg hac, if_neg hca]
              exact ih bs cs h₁₂ h₂₃

instance : IsTotal String strLeP :=
  ⟨fun a b => charListLe_total a.data b.data⟩

instance : IsTrans String strLeP :=
  ⟨fun a b c => charListLe_trans a.data b.data c.data⟩

/-! ## URL normalisation and token injection

Two distinct functions named `with_token_https` exist in the repository:
one in `run_orion_daily.py` (which first normalises the URL, rewriting
the `git@github.com:` shorthand to `https://`), and one in
`ops/git_ops.py` (which performs no normalisation and takes an optional
token).  Both are embedded. -/

namespace run_orion_daily

/-- Model of `normalize_repo_url_to_https` (run_orion_daily.py, lines 126-138).
Python's `s.split("git@github.com:", 1)[1]` equals `s.drop 15` when `s`
starts with the 15-character separator, since the first occurrence is at
index 0. -/
def normalize_repo_url_to_https (repo_url : String) : String :=
  let s := strTrim repo_url
  if strStartsWith s "https://" then s
  else if strStartsWith s "git@github.com:" then "https://github.com/" ++ strDrop s 15
  else s

/-- Model of `with_token_https` (run_orion_daily.py, lines 141-151).
Python's falsy test on the token is the empty-string test.  `url[len("https://"):]`
is `strDrop url 8`. -/
def with_token_https (repo_url_https : String) (token : String) : String :=
  if token = "" then normalize_repo_url_to_https repo_url_https
  else
    let url := normalize_repo_url_to_https repo_url_https
    if strStartsWith url "https://" then "https://" ++ token ++ "@" ++ strDrop url 8
    else url

/-- Model of the extraction in `ls_remote_head_sha` (lines 154-162):
`so.strip().split()[0][:12]`. -/
def shortSha12 (so : String) : String :=
  strTake (firstToken so) 12

end run_orion_daily

namespace git_ops

/-- Model of `with_token_https` (ops/git_ops.py, lines 34-39).  No URL
normalisation; the token is optional and both `None` and `""` are falsy. -/
def with_token_https (url : String) (token : Option String) : String :=
  match token with
  | none => url
  | some t =>
    if t = "" then url
    else if strStartsWith url "https://" then "https://" ++ t ++ "@" ++ strDrop url 8
    else url

end git_ops

/-! ## Backup directory naming

`update_strategies_clone_swap` (and `update_dir_clone_swap`) derive the
backup directory name from the destination name and the previous
revision (or a timestamp), and probe `_1`, `_2`, ... suffixes until the
name does not exist among the siblings.  `siblings` is the list of names
that exist in the destination's parent directory. -/

/-- Candidate backup names, in probe order: the base name itself, then
`base_1`, `base_2`, ... exactly as the Python loop generates them. -/
def backupCandidate (base : String) (i : Nat) : String :=
  if i = 0 then base else base ++ "_" ++ natRepr i

/-- The collision loop, with explicit recursion fuel.  `fuel = siblings.length + 1`
always suffices (proved below), so the fuel-exhausted branch is unreachable. -/
def findFreeBackupGo (siblings : List String) (base : String) : Nat → Nat → String
  | 0, i => backupCandidate base i
  | fuel + 1, i =>
    if backupCandidate base i ∈ siblings then findFreeBackupGo siblings base fuel (i + 1)
    else backupCandidate base i

/-- Model of the backup-name collision loop (run_orion_daily.py lines 206-212,
git_ops.py lines 79-85): probe candidates in order until one does not
exist among the siblings. -/
def findFreeBackup (siblings : List String) (base : String) : String :=
  findFreeBackupGo siblings base (siblings.length + 1) 0

theorem backupCandidate_length (base : String) (i : Nat) :
    base.length ≤ (backupCandidate base i).length := by
  unfold backupCandidate
  by_cases h : i = 0
  · rw [if_pos h]
  · rw [if_neg h]
    rw [String.length_append, String.length_append]
    omega

theorem backupCandidate_injective (base : String) : Function.Injective (backupCandidate base) := by
  intro i j h
  unfold backupCandidate at h
  by_cases hi : i = 0 <;> by_cases hj : j = 0
  · omega
  · exfalso
    rw [if_pos hi, if_neg hj] at h
    have := congrArg String.length h
    rw [String.length_append, String.length_append] at this
    have := natRepr_length_pos j
    have h1 : ("_" : String).length = 1 := rfl
    omega
  · exfalso
    rw [if_neg hi, if_pos hj] at h
    have := congrArg String.length h
    rw [String.length_append, String.length_append] at this
    have := natRepr_length_pos i
    have h1 : ("_" : String).length = 1 := rfl
    omega
  · rw [if_neg hi, if_neg hj] at h
    have hdata := congrArg String.data h
    rw [String.data_append, String.data_append, String.data_append, String.data_append] at hdata
    have h2 : (natRepr i).data = (natRepr j).data := List.append_cancel_left hdata
    exact natRepr_injective (String.ext h2)

theorem exists_free_candidate (siblings : List String) (base : String) :
    ∃ i, i ≤ siblings.length ∧ backupCandidate base i ∉ siblings := by
  by_contra hcon
  push_neg at hcon
  set L := siblings.length with hL
  have hall : ∀ i ≤ L, backupCandidate base i ∈ siblings := hcon
  have hnodup : ((List.range (L + 1)).map (backupCandidate base)).Nodup :=
    List.Nodup.map (backupCandidate_injective base) (List.nodup_range (L + 1))
  have hsub : ((List.range (L + 1)).map (backupCandidate base)).toFinset ⊆ siblings.toFinset := by
    intro x hx
    rw [List.mem_toFinset] at hx ⊢
    rcases List.mem_map.mp hx with ⟨i, hi, rfl⟩
    exact hall i (by have := List.mem_range.mp hi; omega)
  have hcard1 : ((List.range (L + 1)).map (backupCandidate base)).toFinset.card = L + 1 := by
    rw [List.toFinset_card_of_nodup hnodup]
    simp
  have hcard2 : siblings.toFinset.card ≤ L := List.toFinset_card_le siblings
  have := Finset.card_le_card hsub
  omega

theorem findFreeBackupGo_spec (siblings : List String) (base : String) :
    ∀ fuel i, (∃ j, i ≤ j ∧ j < i + fuel ∧ backupCandidate base j ∉ siblings) →
    ∃ j, i ≤ j ∧ findFreeBackupGo siblings base fuel i = backupCandidate base j ∧
      backupCandidate base j ∉ siblings ∧ ∀ k, i ≤ k → k < j → backupCandidate base k ∈ siblings := by
  intro fuel
  induction fuel with
  | zero =>
    intro i ⟨j, hij, hlt, _⟩
    omega
  | succ f ih =>
    intro i ⟨j, hij, hlt, hfree⟩
    by_cases hmem : backupCandidate base i ∈ siblings
    · have hne : j ≠ i := by
        intro hcon
        rw [hcon] at hfree
        exact hfree hmem
      have hex : ∃ j', i + 1 ≤ j' ∧ j' < (i + 1) + f ∧ backupCandidate base j' ∉ siblings :=
        ⟨j, by omega, by omega, hfree⟩
      rcases ih (i + 1) hex with ⟨j', hij', heq, hfree', hmin⟩
      refine ⟨j', by omega, ?_, hfree', ?_⟩
      · rw [findFreeBackupGo, if_pos hmem]
        exact heq
      · intro k hk hkj
        by_cases hki : k = i
        · rw [hki]; exact hmem
        · exact hmin k (by omega) hkj
    · refine ⟨i, Nat.le_refl i, ?_, hmem, by omega⟩
      rw [findFreeBackupGo, if_neg hmem]

/-- The collision loop returns the first candidate that does not exist among
the siblings; in particular the returned name is fresh. -/
theorem findFreeBackup_spec (siblings : List String) (base : String) :
    ∃ j, findFreeBackup siblings base = backupCandidate base j ∧
      backupCandidate base j ∉ siblings ∧ ∀ k < j, backupCandidate base k ∈ siblings := by
  rcases exists_free_candidate siblings base with ⟨i, hle, hfree⟩
  have hex : ∃ j, 0 ≤ j ∧ j < 0 + (siblings.length + 1) ∧ backupCandidate base j ∉ siblings :=
    ⟨i, by omega, by omega, hfree⟩
  rcases findFreeBackupGo_spec siblings base (siblings.length + 1) 0 hex with ⟨j, _, heq, hfree', hmin⟩
  exact ⟨j, heq, hfree', fun k hk => hmin k (by omega) hk⟩

theorem findFreeBackup_not_mem (siblings : List String) (base : String) :
    findFreeBackup siblings base ∉ siblings := by
  rcases findFreeBackup_spec siblings base with ⟨j, heq, hfree, _⟩
  rw [heq]
  exact hfree

theorem findFreeBackup_length (siblings : List String) (base : String) :
    base.length ≤ (findFreeBackup siblings base).length := by
  rcases findFreeBackup_spec siblings base with ⟨j, heq, _, _⟩
  rw [heq]
  exact backupCandidate_length base j

/-! ## Filesystem and version-control events

Every mutating operation the program performs is recorded as an event.
Paths are lists of name segments.  `rmtree`, `gitClone` (a shallow clone
writing a fresh tree at a path), `move` (a directory rename) and
`copyTree` are interpreted over a filesystem state mapping paths to an
optional tree value; the pure-git events (`gitAdd`, `gitConfig`,
`gitCommit`, `gitPush`, `gitFetch`, `gitCheckout`, `gitPull`) act on
repository state, not on the path-to-tree map, and are interpreted as
the identity there. -/

inductive FsEvent where
  | rmtree (p : List String)
  | gitClone (url : String) (p : List String)
  | move (src dst : List String)
  | mkdirp (p : List String)
  | copyTree (src dst : List String)
  | gitAdd (path : String)
  | gitConfig (key value : String)
  | gitCommit (msg : String)
  | gitPush (branch : String)
  | gitFetch (branch : String)
  | gitCheckout (branch : String)
  | gitPull (branch : String)
deriving Repr, DecidableEq

/-- A filesystem state: each path either holds a complete tree (identified
by a string value) or nothing. -/
def FsState := List String → Option String

/-- Interpretation of one event on a filesystem state.  A completed clone
at `p` installs the tree `"clone:" ++ url`; a `move` is a rename: the
destination takes the source's tree and the source becomes absent. -/
def applyEvent (fs : FsState) : FsEvent → FsState
  | FsEvent.rmtree p => fun q => if q = p then none else fs q
  | FsEvent.gitClone url p => fun q => if q = p then some ("clone:" ++ url) else fs q
  | FsEvent.move a b => fun q => if q = b then fs a else if q = a then none else fs q
  | FsEvent.mkdirp p => fun q => if q = p then (match fs p with | none => some "dir:empty" | some t => some t) else fs q
  | FsEvent.copyTree a b => fun q => if q = b then fs a else fs q
  | _ => fs

/-- Interpretation of an event list, left to right. -/
def applyEvents (fs : FsState) : List FsEvent → FsState
  | [] => fs
  | e :: es => applyEvents (applyEvent fs e) es

/-- Whether an event writes to (creates, removes or replaces) the path `p`. -/
def FsEvent.writesTo (e : FsEvent) (p : List String) : Bool :=
  match e with
  | FsEvent.rmtree q => q = p
  | FsEvent.gitClone _ q => q = p
  | FsEvent.move a b => a = p || b = p
  | FsEvent.mkdirp q => q = p
  | FsEvent.copyTree _ b => b = p
  | _ => false

theorem applyEvent_of_not_writesTo (fs : FsState) (e : FsEvent) (p : List String)
    (h : e.writesTo p = false) : applyEvent fs e p = fs p := by
  cases e with
  | rmtree q =>
    have hq : ¬ q = p := by simpa [FsEvent.writesTo] using h
    show (if p = q then none else fs p) = fs p
    rw [if_neg (fun hc => hq hc.symm)]
  | gitClone url q =>
    have hq : ¬ q = p := by simpa [FsEvent.writesTo] using h
    show (if p = q then some ("clone:" ++ url) else fs p) = fs p
    rw [if_neg (fun hc => hq hc.symm)]
  | move a b =>
    have hab : ¬ a = p ∧ ¬ b = p := by simpa [FsEvent.writesTo] using h
    show (if p = b then fs a else if p = a then none else fs p) = fs p
    rw [if_neg (fun hc => hab.2 hc.symm), if_neg (fun hc => hab.1 hc.symm)]
  | mkdirp q =>
    have hq : ¬ q = p := by simpa [FsEvent.writesTo] using h
    show (if p = q then (match fs q with | none => some "dir:empty" | some t => some t) else fs p) = fs p
    rw [if_neg (fun hc => hq hc.symm)]
  | copyTree a b =>
    have hb : ¬ b = p := by simpa [FsEvent.writesTo] using h
    show (if p = b then fs a else fs p) = fs p
    rw [if_neg (fun hc => hb hc.symm)]
  | gitAdd q => rfl
  | gitConfig k v => rfl
  | gitCommit m => rfl
  | gitPush b => rfl
  | gitFetch b => rfl
  | gitCheckout b => rfl
  | gitPull b => rfl

theorem applyEvents_of_not_writesTo (p : List String) :
    ∀ (t : List FsEvent) (fs : FsState), (∀ e ∈ t, e.writesTo p = false) →
    applyEvents fs t p = fs p := by
  intro t
  induction t with
  | nil => intro fs _; rfl
  | cons e es ih =>
    intro fs h
    have he : e.writesTo p = false := h e (List.mem_cons_self e es)
    have hes : ∀ e' ∈ es, e'.writesTo p = false := fun e' he' => h e' (List.mem_cons_of_mem e he')
    show applyEvents (applyEvent fs e) es p = fs p
    rw [ih (applyEvent fs e) hes, applyEvent_of_not_writesTo fs e p he]

/-- Appending a single final segment to unequal parents gives unequal paths. -/
theorem path_ne_of_parent_ne {as cs : List String} (a c : String) (h : as ≠ cs) :
    as ++ [a] ≠ cs ++ [c] := by
  intro hcon
  have hlen : as.length + 1 = cs.length + 1 := by
    have := congrArg List.length hcon
    simpa using this
  have := List.append_inj hcon (by omega)
  exact h this.1

/-- Appending unequal final segments to the same parent gives unequal paths. -/
theorem path_ne_of_name_ne (as : List String) {a c : String} (h : a ≠ c) :
    as ++ [a] ≠ as ++ [c] := by
  intro hcon
  have := List.append_cancel_left hcon
  simp at this
  exact h this

/-! ## The clone-and-swap synchronizer

`update_strategies_clone_swap` (run_orion_daily.py, lines 177-218).  The
environment supplies the outcome of each external command and filesystem
test; the function returns the result dictionary (or the raised
exception) together with the trace of mutating events it performed, in
order. -/

/-- Result dictionary of `update_strategies_clone_swap` /
`update_dir_clone_swap`: `{"updated":bool, "sha":str|None, "error":str|None,
"backup":str|None}`.  The `backup` field holds the name (final path
segment) of the backup directory when one was created. -/
structure UpdResult where
  updated : Bool
  sha : Option String
  error : Option String
  backup : Option String
deriving Repr, DecidableEq

/-- Environment for one call to the clone-swap synchronizer: outcomes of
the external git commands, filesystem existence tests, the staging
sanity check, the sibling names existing next to the destination, and
the clock. -/
structure SwapEnv where
  lsRemoteOk : Bool
  lsSo : String
  lsSe : String
  dstExists : Bool
  dstGitExists : Bool
  revParseOk : Bool
  revParseOut : String
  tmpExists : Bool
  cloneOk : Bool
  cloneSo : String
  cloneSe : String
  stagingHasIpynb : Bool
  siblings : List String
  timeSec : Nat
deriving Repr, DecidableEq

instance {ε α : Type} [DecidableEq ε] [DecidableEq α] : DecidableEq (Except ε α)
  | Except.error a, Except.error b =>
    decidable_of_iff (a = b) ⟨fun h => by rw [h], fun h => by injection h⟩
  | Except.error _, Except.ok _ => isFalse (fun h => Except.noConfusion h)
  | Except.ok _, Except.error _ => isFalse (fun h => Except.noConfusion h)
  | Except.ok a, Except.ok b =>
    decidable_of_iff (a = b) ⟨fun h => by rw [h], fun h => by injection h⟩

/-- Outcome of a synchronizer call: the returned dictionary or the raised
exception message, plus the ordered trace of mutating events. -/
structure SwapOut where
  res : Except String UpdResult
  trace : List FsEvent
deriving Repr, DecidableEq

/-- Trace of `clone_depth1` (run_orion_daily.py lines 165-174): remove the
target if it exists, then clone into it. -/
def cloneDepth1Trace (tmpExists : Bool) (url : String) (p : List String) : List FsEvent :=
  (if tmpExists then [FsEvent.rmtree p] else []) ++ [FsEvent.gitClone url p]

namespace run_orion_daily

/-- The local revision as resolved by lines 187-191: only when the
destination exists, has `.git` metadata, and `git rev-parse` succeeds. -/
def localShaOf (env : SwapEnv) : Option String :=
  if env.dstExists && env.dstGitExists && env.revParseOk then some (strTrim env.revParseOut) else none

/-- The truthy equality test of line 193: `if local_sha and local_sha == remote_sha`. -/
def localEqRemote (localSha : Option String) (remoteSha : String) : Bool :=
  match localSha with
  | none => false
  | some s => !(s == "") && s == remoteSha

/-- The backup key of lines 208 and 212: `local_sha or int(time.time())`. -/
def backupKey (localSha : Option String) (timeSec : Nat) : String :=
  match localSha with
  | none => natRepr timeSec
  | some s => if s = "" then natRepr timeSec else s

/-- Model of `update_strategies_clone_swap` (run_orion_daily.py, lines
177-218).  `tmpBase` models `tempfile.gettempdir()`; the destination is
`dstParent ++ [dstName]`.  The trace lists the mutating filesystem
operations in program order; `Except.error` models a raised exception. -/
def update_strategies_clone_swap (env : SwapEnv) (repoUrl branch token : String)
    (tmpBase dstParent : List String) (dstName : String) : SwapOut :=
  let url := with_token_https repoUrl token
  if !env.lsRemoteOk then
    ⟨Except.error ("git ls-remote failed: " ++ pyOr (strTrim env.lsSe) (strTrim env.lsSo)), []⟩
  else if (strTrim env.lsSo) = "" then
    ⟨Except.error "git ls-remote returned empty output", []⟩
  else
    let remoteSha := shortSha12 env.lsSo
    let localSha := localShaOf env
    if localEqRemote localSha remoteSha then
      ⟨Except.ok ⟨false, some remoteSha, none, none⟩, []⟩
    else
      let tmpPath := tmpBase ++ ["orion_strategies_" ++ remoteSha ++ "_" ++ natRepr env.timeSec]
      let cloneTrace := cloneDepth1Trace env.tmpExists url tmpPath
      if !env.cloneOk then
        ⟨Except.error ("git clone failed: " ++ pyOr (strTrim env.cloneSe) (strTrim env.cloneSo)), cloneTrace⟩
      else if !env.stagingHasIpynb then
        ⟨Except.ok ⟨false, some remoteSha, some "No notebooks found in strategies repo", none⟩,
         cloneTrace ++ [FsEvent.rmtree tmpPath]⟩
      else if env.dstExists then
        let bname := findFreeBackup env.siblings (dstName ++ "_backup_" ++ backupKey localSha env.timeSec)
        ⟨Except.ok ⟨true, some remoteSha, none, some bname⟩,
         cloneTrace ++ [FsEvent.move (dstParent ++ [dstName]) (dstParent ++ [bname]),
                        FsEvent.move tmpPath (dstParent ++ [dstName])]⟩
      else
        ⟨Except.ok ⟨true, some remoteSha, none, none⟩,
         cloneTrace ++ [FsEvent.move tmpPath (dstParent ++ [dstName])]⟩

end run_orion_daily

namespace git_ops

/-- The equality test of `update_dir_clone_swap` (git_ops.py line 76):
plain `local_sha == remote_sha`, where Python's `None == str` is false. -/
def localEqRemote (localSha : Option String) (remoteSha : String) : Bool :=
  match localSha with
  | none => false
  | some s => s == remoteSha

/-- Model of `update_dir_clone_swap` (ops/git_ops.py, lines 65-90).  Same
protocol as `run_orion_daily.update_strategies_clone_swap` but with no
content sanity check and the non-truthy revision comparison; the token is
optional. -/
def update_dir_clone_swap (env : SwapEnv) (repoUrl branch : String) (token : Option String)
    (tmpBase dstParent : List String) (dstName : String) : SwapOut :=
  let url := with_token_https repoUrl token
  if !env.lsRemoteOk then
    ⟨Except.error ("git ls-remote failed: " ++ pyOr (strTrim env.lsSe) (strTrim env.lsSo)), []⟩
  else if (strTrim env.lsSo) = "" then
    ⟨Except.error "git ls-remote returned empty output", []⟩
  else
    let remoteSha := run_orion_daily.shortSha12 env.lsSo
    let localSha := run_orion_daily.localShaOf env
    if localEqRemote localSha remoteSha then
      ⟨Except.ok ⟨false, some remoteSha, none, none⟩, []⟩
    else
      let tmpPath := tmpBase ++ ["orion_swap_" ++ dstName ++ "_" ++ remoteSha ++ "_" ++ natRepr env.timeSec]
      let cloneTrace := cloneDepth1Trace env.tmpExists url tmpPath
      if !env.cloneOk then
        ⟨Except.error ("git clone failed: " ++ pyOr (strTrim env.cloneSe) (strTrim env.cloneSo)), cloneTrace⟩
      else if env.dstExists then
        let bname := findFreeBackup env.siblings
          (dstName ++ "_backup_" ++ run_orion_daily.backupKey localSha env.timeSec)
        ⟨Except.ok ⟨true, some remoteSha, none, some bname⟩,
         cloneTrace ++ [FsEvent.move (dstParent ++ [dstName]) (dstParent ++ [bname]),
                        FsEvent.move tmpPath (dstParent ++ [dstName])]⟩
      else
        ⟨Except.ok ⟨true, some remoteSha, none, none⟩,
         cloneTrace ++ [FsEvent.move tmpPath (dstParent ++ [dstName])]⟩

end git_ops

/-! ## The non-atomic fetch/checkout/pull path -/

/-- Environment for one call to `ensure_repo_checkout`: destination
existence tests and the outcomes of the four possible git commands. -/
structure EnsureEnv where
  dstExists : Bool
  dstGitExists : Bool
  cloneOk : Bool
  cloneSo : String
  cloneSe : String
  fetchOk : Bool
  fetchSo : String
  fetchSe : String
  checkoutOk : Bool
  checkoutSo : String
  checkoutSe : String
  pullOk : Bool
  pullSo : String
  pullSe : String
deriving Repr, DecidableEq

/-- Result dictionary of `ensure_repo_checkout`: `{"updated":bool, "error":str|None}`. -/
structure EnsureResult where
  updated : Bool
  error : Option String
deriving Repr, DecidableEq

namespace git_ops

/-- Model of `ensure_repo_checkout` (ops/git_ops.py, lines 92-113).  If the
destination is absent, shallow-clone directly into it (no prior rmtree,
since the destination does not exist).  If it exists without `.git`
metadata, raise.  Otherwise fetch, checkout, pull, stopping at the first
failing step with that step's message and `updated=false`; no rollback.
`dstPathStr` is the string rendering of the destination used in the
exception message. -/
def ensure_repo_checkout (env : EnsureEnv) (repoUrl branch : String) (token : Option String)
    (dstPath : List String) (dstPathStr : String) : (Except String EnsureResult) × List FsEvent :=
  let url := with_token_https repoUrl token
  if !env.dstExists then
    if !env.cloneOk then
      (Except.error ("git clone failed: " ++ pyOr (strTrim env.cloneSe) (strTrim env.cloneSo)),
       [FsEvent.gitClone url dstPath])
    else
      (Except.ok ⟨true, none⟩, [FsEvent.gitClone url dstPath])
  else if !env.dstGitExists then
    (Except.error ("Destination exists but not a git repo: " ++ dstPathStr), [])
  else if !env.fetchOk then
    (Except.ok ⟨false, some (pyOr (strTrim env.fetchSe) (strTrim env.fetchSo))⟩, [FsEvent.gitFetch branch])
  else if !env.checkoutOk then
    (Except.ok ⟨false, some (pyOr (strTrim env.checkoutSe) (strTrim env.checkoutSo))⟩,
     [FsEvent.gitFetch branch, FsEvent.gitCheckout branch])
  else if !env.pullOk then
    (Except.ok ⟨false, some (pyOr (strTrim env.pullSe) (strTrim env.pullSo))⟩,
     [FsEvent.gitFetch branch, FsEvent.gitCheckout branch, FsEvent.gitPull branch])
  else
    (Except.ok ⟨true, none⟩,
     [FsEvent.gitFetch branch, FsEvent.gitCheckout branch, FsEvent.gitPull branch])

end git_ops

/-! ## The results publishing step -/

/-- Strip every copy of the character `c` from both ends of a character list
(models Python `str.strip(chars)` with a single-character set). -/
def stripCharList (l : List Char) (c : Char) : List Char :=
  ((l.dropWhile (· == c)).reverse.dropWhile (· == c)).reverse

/-- Strip every copy of `c` from both ends of a string. -/
def stripChar (s : String) (c : Char) : String :=
  String.mk (stripCharList s.data c)

/-- Result dictionary of the publish step: `{"pushed":bool, "commit":str|None,
"error":str|None}`. -/
structure PushResult where
  pushed : Bool
  commit : Option String
  error : Option String
deriving Repr, DecidableEq

/-- Environment for one call to `push_results_to_repo`: outcomes of the
external git commands, source/destination existence tests, whether the
staged diff was empty (`git diff --cached --quiet` exiting 0), and the
clock and timestamp. -/
structure PushEnv where
  cloneOk : Bool
  cloneSo : String
  cloneSe : String
  srcSignalsExists : Bool
  srcStatusExists : Bool
  destSignalsExists : Bool
  destStatusExists : Bool
  diffEmpty : Bool
  commitOk : Bool
  commitSo : String
  commitSe : String
  revParseOk : Bool
  revParseOut : String
  pushOk : Bool
  pushSo : String
  pushSe : String
  timeSec : Nat
  ts : String
deriving Repr, DecidableEq

namespace run_orion_daily

/-- Model of `push_results_to_repo` (run_orion_daily.py, lines 221-309).
Clone the results repo into a fresh temporary directory, overlay the
`signals` and `status` trees into the configured base, stage exactly
those two paths, commit only when the staged diff is non-empty, push,
and remove the temporary clone unconditionally (the `finally` block's
`rmtree` is the last trace event on every path). -/
def push_results_to_repo (env : PushEnv) (resultsRepoUrl branch token : String)
    (tmpBase orionHome : List String) (resultsLayout resultsSubdir : String) :
    PushResult × List FsEvent :=
  let url := with_token_https resultsRepoUrl token
  let tmp := tmpBase ++ ["orion_stats_" ++ natRepr env.timeSec]
  let subdir := stripChar (stripChar (strTrim resultsSubdir) '/') '\\'
  let useSubdir := (strToLower resultsLayout == "subdir") || !(subdir == "")
  if !env.cloneOk then
    (⟨false, none, some ("git clone failed: " ++ pyOr (strTrim env.cloneSe) (strTrim env.cloneSo))⟩,
     [FsEvent.gitClone url tmp, FsEvent.rmtree tmp])
  else if !env.srcSignalsExists && !env.srcStatusExists then
    (⟨false, none, some "No signals/ or status/ to push"⟩,
     [FsEvent.gitClone url tmp, FsEvent.rmtree tmp])
  else
    let base := if useSubdir then tmp ++ [subdir] else tmp
    let destSignals := base ++ ["signals"]
    let destStatus := base ++ ["status"]
    let rmEvents :=
      (if env.destSignalsExists then [FsEvent.rmtree destSignals] else []) ++
      (if env.destStatusExists then [FsEvent.rmtree destStatus] else [])
    let cpEvents :=
      (if env.srcSignalsExists then [FsEvent.copyTree (orionHome ++ ["signals"]) destSignals] else []) ++
      (if env.srcStatusExists then [FsEvent.copyTree (orionHome ++ ["status"]) destStatus] else [])
    let addSignals := if useSubdir then subdir ++ "/signals" else "signals"
    let addStatus := if useSubdir then subdir ++ "/status" else "status"
    let pre := [FsEvent.gitClone url tmp, FsEvent.mkdirp base] ++ rmEvents ++ cpEvents ++
      [FsEvent.gitAdd addSignals, FsEvent.gitAdd addStatus]
    if env.diffEmpty then
      (⟨false, none, none⟩, pre ++ [FsEvent.rmtree tmp])
    else
      let msg := "orion: update signals/status " ++ env.ts
      let commitEvents := [FsEvent.gitConfig "user.name" "orion-bot",
                           FsEvent.gitConfig "user.email" "orion-bot@local",
                           FsEvent.gitCommit msg]
      if !env.commitOk then
        (⟨false, none, some ("git commit failed: " ++ pyOr (strTrim env.commitSe) (strTrim env.commitSo))⟩,
         pre ++ commitEvents ++ [FsEvent.rmtree tmp])
      else
        let commitId := if env.revParseOk then
            (if (strTrim env.revParseOut) = "" then none else some (strTrim env.revParseOut))
          else none
        if !env.pushOk then
          (⟨false, commitId, some ("git push failed: " ++ pyOr (strTrim env.pushSe) (strTrim env.pushSo))⟩,
           pre ++ commitEvents ++ [FsEvent.gitPush branch, FsEvent.rmtree tmp])
        else
          (⟨true, commitId, none⟩,
           pre ++ commitEvents ++ [FsEvent.gitPush branch, FsEvent.rmtree tmp])

end run_orion_daily

/-! ## The main pipeline

`main()` (run_orion_daily.py, lines 377-573).  The status document is
modelled with the fields the run mutates; wall-clock durations, the
markdown rendering, environment-variable plumbing and the
`write_status` persistence calls are not observable in the claims and
are not modelled.  The filesystem trace of the strategies sync phase and
of the publish phase are returned separately. -/

/-- Decimal rendering of a Python int (used in `exit {code}` messages). -/
def intRepr : Int → String
  | Int.ofNat n => natRepr n
  | Int.negSucc n => "-" ++ natRepr (n + 1)

/-- Per-job entry of the status document's `strategies` map (duration
omitted): `{"ok": bool, "error"?: str}`. -/
structure JobInfo where
  ok : Bool
  error : Option String
deriving Repr, DecidableEq

/-- The `github` section of the status document. -/
structure GithubStatus where
  strategies_repo : Option String
  strategies_sha : Option String
  strategies_updated : Option Bool
  strategies_error : Option String
  results_repo : Option String
  results_pushed : Option Bool
  results_commit : Option String
  results_error : Option String
deriving Repr, DecidableEq

/-- The `cracen` section of the status document. -/
structure CracenStatus where
  ok : Bool
  error : Option String
deriving Repr, DecidableEq

/-- The status document (the fields the claims observe). `strategies` is
an association list in insertion order, modelling the Python dict. -/
structure RunStatus where
  github : GithubStatus
  datum_ok : Bool
  cracen : CracenStatus
  strategies : List (String × JobInfo)
  fatal_error : Option String
deriving Repr, DecidableEq

/-- Environment for one whole run of `main()`: configuration, the swap
sync environment, outcomes of the primary job and of each dependent job
(`depCode`/`depSo`/`depSe` indexed by notebook file name), the set of
discovered notebook file names, and the publish environment. -/
structure MainEnv where
  cfgOk : Bool
  tokenOk : Bool
  token : String
  strategiesRepo : String
  strategiesBranch : String
  resultsRepo : String
  resultsBranch : String
  resultsLayout : String
  resultsSubdir : String
  useCloneSwap : Bool
  swap : SwapEnv
  secretsOk : Bool
  cracenNbExists : Bool
  cracenCode : Int
  cracenSo : String
  cracenSe : String
  finalExists : Bool
  notebooks : List String
  depCode : String → Int
  depSo : String → String
  depSe : String → String
  push : PushEnv

/-- Output of one run of `main()`: the process exit code, the final status
document, and the mutating event traces of the sync and publish phases. -/
structure MainOut where
  exitCode : Nat
  status : RunStatus
  syncTrace : List FsEvent
  pushTrace : List FsEvent
deriving Repr, DecidableEq

namespace run_orion_daily

/-- The status document as initialised at the top of `main()` (lines 394-422). -/
def initStatus : RunStatus :=
  ⟨⟨none, none, none, none, none, none, none, none⟩, false, ⟨false, none⟩, [], none⟩

/-- Phase 1 of `main()` (lines 448-463): when clone-swap is enabled, run the
synchronizer and record its outcome (a raised exception is caught and
recorded, truncated to 2000 characters); when disabled, record
`strategies_updated = False` and perform nothing. -/
def syncPhase (env : MainEnv) (tmpBase orionHome : List String) (gh : GithubStatus) :
    GithubStatus × List FsEvent :=
  if env.useCloneSwap then
    let so := update_strategies_clone_swap env.swap env.strategiesRepo env.strategiesBranch
      env.token tmpBase orionHome "STRATEGIES"
    match so.res with
    | Except.ok upd =>
      ({ gh with
          strategies_sha := upd.sha,
          strategies_updated := some upd.updated,
          strategies_error := match upd.error with
            | none => gh.strategies_error
            | some e => if e = "" then gh.strategies_error else some e },
       so.trace)
    | Except.error msg =>
      ({ gh with strategies_error := some (strTake msg 2000) }, so.trace)
  else
    ({ gh with strategies_updated := some false }, [])

/-- Models `nb.stem` for a `*.ipynb` file name: drop the 6-character suffix. -/
def stemOf (n : String) : String := n.dropRight 6

/-- The job-result entry for one dependent notebook (lines 528-533). -/
def depJobInfo (env : MainEnv) (n : String) : JobInfo :=
  if env.depCode n = 0 then ⟨true, none⟩
  else ⟨false, some (strTake (pyOr (strTrim (env.depSe n))
    (pyOr (strTrim (env.depSo n)) ("exit " ++ intRepr (env.depCode n)))) 2000)⟩

/-- Phase 4 of `main()` (lines 523-533): the dependent notebooks are the
sorted discovered `*.ipynb` names minus `CRACEN.ipynb`; each is executed
in turn and its result recorded. -/
def depEntries (env : MainEnv) : List (String × JobInfo) :=
  ((List.insertionSort strLeP env.notebooks).filter (fun n => !(n == "CRACEN.ipynb"))).map
    (fun n => (stemOf n, depJobInfo env n))

/-- The error message recorded when the primary job exits non-zero
(line 507). -/
def cracenFailMsg (env : MainEnv) : String :=
  strTake (pyOr (strTrim env.cracenSe) (pyOr (strTrim env.cracenSo) ("exit " ++ intRepr env.cracenCode))) 2000

/-- Model of `main()` (run_orion_daily.py, lines 377-573). -/
def mainRun (env : MainEnv) (tmpBase orionHome : List String) : MainOut :=
  if !env.cfgOk then
    ⟨1, { initStatus with fatal_error := some "Missing ops config" }, [], []⟩
  else if !env.tokenOk then
    ⟨1, { initStatus with fatal_error := some "Missing GitHub token file" }, [], []⟩
  else
    let st1 : RunStatus := { initStatus with github :=
      { initStatus.github with strategies_repo := some env.strategiesRepo,
                               results_repo := some env.resultsRepo } }
    let sp := syncPhase env tmpBase orionHome st1.github
    let st2 := { st1 with github := sp.1 }
    if !env.secretsOk then
      ⟨1, { st2 with fatal_error := some "Datum API secrets not found" }, sp.2, []⟩
    else
      let st3 := { st2 with datum_ok := true }
      if !env.cracenNbExists then
        ⟨1, { st3 with cracen := ⟨false, some "Missing: CRACEN.ipynb"⟩ }, sp.2, []⟩
      else if env.cracenCode ≠ 0 then
        ⟨1, { st3 with cracen := ⟨false, some (cracenFailMsg env)⟩ }, sp.2, []⟩
      else if !env.finalExists then
        ⟨1, { st3 with cracen := ⟨false, some "CRACEN finished but missing final.parquet"⟩ }, sp.2, []⟩
      else
        let st4 := { st3 with cracen := ⟨true, none⟩ }
        let st5 := { st4 with strategies := depEntries env }
        let pp := push_results_to_repo env.push env.resultsRepo env.resultsBranch env.token
          tmpBase orionHome env.resultsLayout env.resultsSubdir
        let st6 := { st5 with github := { st5.github with
          results_pushed := some pp.1.pushed,
          results_commit := pp.1.commit,
          results_error := pp.1.error } }
        let exitCode : Nat :=
          if !st6.cracen.ok then 1
          else if (match pp.1.error with | some e => !(e == "") | none => false) then 1
          else 0
        ⟨exitCode, st6, sp.2, pp.2⟩

end run_orion_daily

/-! ## General trace lemmas -/

theorem mem_cloneDepth1Trace (b : Bool) (url : String) (p : List String) (e : FsEvent)
    (he : e ∈ cloneDepth1Trace b url p) : e = FsEvent.rmtree p ∨ e = FsEvent.gitClone url p := by
  rcases b with _ | _ <;> simp [cloneDepth1Trace] at he <;> tauto

theorem applyEvents_append (t₁ t₂ : List FsEvent) :
    ∀ fs : FsState, applyEvents fs (t₁ ++ t₂) = applyEvents (applyEvents fs t₁) t₂ := by
  induction t₁ with
  | nil => intro fs; rfl
  | cons e es ih =>
    intro fs
    show applyEvents (applyEvent fs e) (es ++ t₂) = _
    rw [ih (applyEvent fs e)]
    rfl

/-- State of the destination across every prefix of a trace of the shape
`pre ++ [move dst bpath, move tmp dst]` where `pre` never writes to `dst`
and leaves the tree `v` at `tmp`: the destination holds its original
tree, then (between the two renames only) nothing, then `v`. -/
theorem swap_prefix_states (fs : FsState) (dst tmp bpath : List String) (v : String)
    (pre : List FsEvent)
    (htd : tmp ≠ dst) (hbd : bpath ≠ dst) (hbt : bpath ≠ tmp)
    (hpre : ∀ e ∈ pre, e.writesTo dst = false)
    (hv : applyEvents fs pre tmp = some v) (k : Nat) :
    applyEvents fs ((pre ++ [FsEvent.move dst bpath, FsEvent.move tmp dst]).take k) dst = fs dst ∨
    applyEvents fs ((pre ++ [FsEvent.move dst bpath, FsEvent.move tmp dst]).take k) dst = none ∨
    applyEvents fs ((pre ++ [FsEvent.move dst bpath, FsEvent.move tmp dst]).take k) dst = some v := by
  by_cases hk : k ≤ pre.length
  · left
    rw [List.take_append_of_le_length hk]
    exact applyEvents_of_not_writesTo dst (pre.take k) fs
      (fun e he => hpre e (List.take_subset k pre he))
  · push_neg at hk
    by_cases hk1 : k = pre.length + 1
    · right; left
      have : (pre ++ [FsEvent.move dst bpath, FsEvent.move tmp dst]).take k =
          pre ++ [FsEvent.move dst bpath] := by
        have h1 : pre ++ [FsEvent.move dst bpath, FsEvent.move tmp dst] =
            (pre ++ [FsEvent.move dst bpath]) ++ [FsEvent.move tmp dst] := by
          simp
        rw [h1, List.take_append_of_le_length (by simp [hk1]), hk1]
        exact List.take_of_length_le (by simp)
      rw [this, applyEvents_append]
      show (if dst = bpath then _ else if dst = dst then none else _) = none
      rw [if_neg (fun hc => hbd hc.symm), if_pos rfl]
    · right; right
      have hk2 : pre.length + 2 ≤ k := by omega
      have : (pre ++ [FsEvent.move dst bpath, FsEvent.move tmp dst]).take k =
          pre ++ [FsEvent.move dst bpath, FsEvent.move tmp dst] :=
        List.take_of_length_le (by simp; omega)
      rw [this]
      have h1 : pre ++ [FsEvent.move dst bpath, FsEvent.move tmp dst] =
          (pre ++ [FsEvent.move dst bpath]) ++ [FsEvent.move tmp dst] := by
        simp
      rw [h1, applyEvents_append, applyEvents_append]
      show (if dst = dst then (applyEvents (applyEvents fs pre) [FsEvent.move dst bpath]) tmp
            else if dst = tmp then none
            else (applyEvents (applyEvents fs pre) [FsEvent.move dst bpath]) dst) = some v
      rw [if_pos rfl]
      show (if tmp = bpath then applyEvents fs pre dst
            else if tmp = dst then none
            else applyEvents fs pre tmp) = some v
      rw [if_neg (fun hc => hbt hc.symm), if_neg htd, hv]

/-! ## Claims -/

/-- Claim C10, counterexample.  The claim asserts that for every URL and
token the `git@github.com:` shorthand is first rewritten to `https://`
before injection, and that an empty token leaves the URL unchanged.
Both parts fail: `git_ops.with_token_https` performs no rewriting (a
non-empty token on a `git@` URL yields the URL unchanged, with no
injection), and `run_orion_daily.with_token_https` with an empty token
still normalizes, changing the URL. -/
theorem claim_C10_cex :
    git_ops.with_token_https "git@github.com:u/r.git" (some "tok") = "git@github.com:u/r.git" ∧
    run_orion_daily.with_token_https "git@github.com:u/r.git" "" = "https://github.com/u/r.git" ∧
    ("https://github.com/u/r.git" : String) ≠ "git@github.com:u/r.git" :=
  ⟨by decide, by decide, by decide⟩

/-- Claim C10 (amended): in `run_orion_daily.with_token_https` the URL is
always normalized first (`git@github.com:` rewritten to `https://`),
even when the token is empty, so an empty token can still change the
returned URL to its normalized form; a non-empty token is injected
exactly when the normalized URL starts with `https://`.  In
`git_ops.with_token_https` no normalization occurs: a non-empty token is
injected only when the URL literally starts with `https://`; otherwise,
or when the token is empty or absent, the URL is returned unchanged. -/
theorem claim_C10 :
    (∀ u : String, run_orion_daily.with_token_https u "" =
      run_orion_daily.normalize_repo_url_to_https u) ∧
    (∀ u t : String, t ≠ "" →
      strStartsWith (run_orion_daily.normalize_repo_url_to_https u) "https://" = true →
      run_orion_daily.with_token_https u t =
        "https://" ++ t ++ "@" ++ strDrop (run_orion_daily.normalize_repo_url_to_https u) 8) ∧
    (∀ u t : String, t ≠ "" →
      strStartsWith (run_orion_daily.normalize_repo_url_to_https u) "https://" = false →
      run_orion_daily.with_token_https u t = run_orion_daily.normalize_repo_url_to_https u) ∧
    (∀ u : String, git_ops.with_token_https u none = u) ∧
    (∀ u : String, git_ops.with_token_https u (some "") = u) ∧
    (∀ u t : String, t ≠ "" → strStartsWith u "https://" = true →
      git_ops.with_token_https u (some t) = "https://" ++ t ++ "@" ++ strDrop u 8) ∧
    (∀ u t : String, t ≠ "" → strStartsWith u "https://" = false →
      git_ops.with_token_https u (some t) = u) := by
  refine ⟨?_, ?_, ?_, ?_, ?_, ?_, ?_⟩
  · intro u
    simp [run_orion_daily.with_token_https]
  · intro u t ht hs
    simp only [run_orion_daily.with_token_https, if_neg ht]
    rw [if_pos hs]
  · intro u t ht hs
    simp only [run_orion_daily.with_token_https, if_neg ht]
    rw [if_neg (by rw [hs]; exact Bool.false_ne_true)]
  · intro u
    rfl
  · intro u
    rfl
  · intro u t ht hs
    simp only [git_ops.with_token_https, if_neg ht]
    rw [if_pos hs]
  · intro u t ht hs
    simp only [git_ops.with_token_https, if_neg ht]
    rw [if_neg (by rw [hs]; exact Bool.false_ne_true)]

/-- Claim C10, witness: the amended theorem applied at concrete inputs. -/
theorem claim_C10_witness :
    run_orion_daily.with_token_https "https://github.com/u/r.git" "tok" =
      "https://" ++ "tok" ++ "@" ++
        strDrop (run_orion_daily.normalize_repo_url_to_https "https://github.com/u/r.git") 8 ∧
    git_ops.with_token_https "ssh://host/x.git" (some "tok") = "ssh://host/x.git" :=
  ⟨claim_C10.2.1 "https://github.com/u/r.git" "tok" (by decide) (by decide),
   claim_C10.2.2.2.2.2.2 "ssh://host/x.git" "tok" (by decide) (by decide)⟩

/-- Claim C2: when the local revision resolves and equals the remote
12-character short revision, swap-mode synchronization performs no clone
and no filesystem mutation (empty event trace) and returns
`updated=false` with that revision.  Proved for both
`update_strategies_clone_swap` and `git_ops.update_dir_clone_swap`. -/
theorem claim_C2 (env : SwapEnv) (repoUrl branch token : String) (tokenOpt : Option String)
    (tmpBase dstParent : List String) (dstName : String)
    (hls : env.lsRemoteOk = true)
    (hne : strTrim env.lsSo ≠ "")
    (hdst : env.dstExists = true) (hgit : env.dstGitExists = true) (hrev : env.revParseOk = true)
    (hloc : strTrim env.revParseOut ≠ "")
    (heq : strTrim env.revParseOut = run_orion_daily.shortSha12 env.lsSo) :
    run_orion_daily.update_strategies_clone_swap env repoUrl branch token tmpBase dstParent dstName =
      ⟨Except.ok ⟨false, some (run_orion_daily.shortSha12 env.lsSo), none, none⟩, []⟩ ∧
    git_ops.update_dir_clone_swap env repoUrl branch tokenOpt tmpBase dstParent dstName =
      ⟨Except.ok ⟨false, some (run_orion_daily.shortSha12 env.lsSo), none, none⟩, []⟩ := by
  have hsha : run_orion_daily.localShaOf env = some (strTrim env.revParseOut) := by
    simp [run_orion_daily.localShaOf, hdst, hgit, hrev]
  have hcond : run_orion_daily.localEqRemote (run_orion_daily.localShaOf env)
      (run_orion_daily.shortSha12 env.lsSo) = true := by
    rw [hsha]
    simp [run_orion_daily.localEqRemote, heq, heq ▸ hloc]
  have hcond2 : git_ops.localEqRemote (run_orion_daily.localShaOf env)
      (run_orion_daily.shortSha12 env.lsSo) = true := by
    rw [hsha]
    simp [git_ops.localEqRemote, heq]
  constructor
  · simp only [run_orion_daily.update_strategies_clone_swap, hls, Bool.not_true,
      Bool.false_eq_true, if_false, if_neg hne, hcond, if_true]
  · simp only [git_ops.update_dir_clone_swap, hls, Bool.not_true,
      Bool.false_eq_true, if_false, if_neg hne, hcond2, if_true]

/-- A concrete environment in which the local checkout already matches the
remote head `abc123def456`. -/
def swapEnvUpToDate : SwapEnv :=
  ⟨true, "abc123def456beef  refs/heads/main", "", true, true, true, "abc123def456", false,
   true, "", "", true, [], 1700000000⟩

/-- Claim C2, witness: the theorem applied to `swapEnvUpToDate`. -/
theorem claim_C2_witness :
    run_orion_daily.update_strategies_clone_swap swapEnvUpToDate
      "https://github.com/o/r.git" "main" "tok" ["tmp"] ["home", "OriON"] "STRATEGIES" =
      ⟨Except.ok ⟨false, some (run_orion_daily.shortSha12 swapEnvUpToDate.lsSo), none, none⟩, []⟩ :=
  (claim_C2 swapEnvUpToDate "https://github.com/o/r.git" "main" "tok" none
    ["tmp"] ["home", "OriON"] "STRATEGIES"
    rfl (by decide) rfl rfl rfl (by decide) (by decide)).1

/-- Claim C3: when the staging sanity check fails (no notebook anywhere
under the fresh clone), swap-mode synchronization deletes the staging
directory (the final trace event), returns the error
`No notebooks found in strategies repo` with `updated=false`, and no
event of the call writes to the destination, so the destination's tree
is unchanged in every filesystem state. -/
theorem claim_C3 (env : SwapEnv) (repoUrl branch token : String)
    (tmpBase dstParent : List String) (dstName : String)
    (hls : env.lsRemoteOk = true)
    (hne : strTrim env.lsSo ≠ "")
    (hneq : run_orion_daily.localEqRemote (run_orion_daily.localShaOf env)
      (run_orion_daily.shortSha12 env.lsSo) = false)
    (hclone : env.cloneOk = true)
    (hsan : env.stagingHasIpynb = false)
    (htb : tmpBase ≠ dstParent) :
    ∀ out : SwapOut,
    run_orion_daily.update_strategies_clone_swap env repoUrl branch token tmpBase dstParent dstName
      = out →
    out.res = Except.ok ⟨false, some (run_orion_daily.shortSha12 env.lsSo),
      some "No notebooks found in strategies repo", none⟩ ∧
    out.trace = cloneDepth1Trace env.tmpExists (run_orion_daily.with_token_https repoUrl token)
        (tmpBase ++ ["orion_strategies_" ++ run_orion_daily.shortSha12 env.lsSo ++ "_" ++
          natRepr env.timeSec]) ++
      [FsEvent.rmtree (tmpBase ++ ["orion_strategies_" ++ run_orion_daily.shortSha12 env.lsSo ++
        "_" ++ natRepr env.timeSec])] ∧
    (∀ e ∈ out.trace, e.writesTo (dstParent ++ [dstName]) = false) ∧
    (∀ fs : FsState, applyEvents fs out.trace (dstParent ++ [dstName]) =
      fs (dstParent ++ [dstName])) := by
  intro out hout
  have happ : run_orion_daily.update_strategies_clone_swap env repoUrl branch token
      tmpBase dstParent dstName =
      ⟨Except.ok ⟨false, some (run_orion_daily.shortSha12 env.lsSo),
        some "No notebooks found in strategies repo", none⟩,
       cloneDepth1Trace env.tmpExists (run_orion_daily.with_token_https repoUrl token)
          (tmpBase ++ ["orion_strategies_" ++ run_orion_daily.shortSha12 env.lsSo ++ "_" ++
            natRepr env.timeSec]) ++
        [FsEvent.rmtree (tmpBase ++ ["orion_strategies_" ++ run_orion_daily.shortSha12 env.lsSo ++
          "_" ++ natRepr env.timeSec])]⟩ := by
    simp only [run_orion_daily.update_strategies_clone_swap, hls, Bool.not_true,
      Bool.false_eq_true, if_false, if_neg hne, hneq, hclone, hsan, Bool.not_false, if_true]
  rw [← hout, happ]
  have htd : tmpBase ++ ["orion_strategies_" ++ run_orion_daily.shortSha12 env.lsSo ++ "_" ++
      natRepr env.timeSec] ≠ dstParent ++ [dstName] :=
    path_ne_of_parent_ne _ _ htb
  have hwr : ∀ e ∈ cloneDepth1Trace env.tmpExists
      (run_orion_daily.with_token_https repoUrl token)
      (tmpBase ++ ["orion_strategies_" ++ run_orion_daily.shortSha12 env.lsSo ++ "_" ++
        natRepr env.timeSec]) ++
      [FsEvent.rmtree (tmpBase ++ ["orion_strategies_" ++ run_orion_daily.shortSha12 env.lsSo ++
        "_" ++ natRepr env.timeSec])],
      e.writesTo (dstParent ++ [dstName]) = false := by
    intro e he
    rcases List.mem_append.mp he with h | h
    · rcases mem_cloneDepth1Trace _ _ _ _ h with h1 | h1 <;> subst h1 <;>
        simp [FsEvent.writesTo, htd]
    · rw [List.mem_singleton.mp h]
      simp [FsEvent.writesTo, htd]
  exact ⟨rfl, rfl, hwr, fun fs => applyEvents_of_not_writesTo _ _ fs hwr⟩

/-- A concrete environment in which the fresh clone contains no notebook. -/
def swapEnvNoNotebook : SwapEnv :=
  ⟨true, "abc123def456beef  refs/heads/main", "", true, true, true, "000000000000", false,
   true, "", "", false, [], 1700000000⟩

/-- Claim C3, witness: the theorem applied to `swapEnvNoNotebook`, with the
destination initially holding the tree `"old"`. -/
theorem claim_C3_witness :
    (run_orion_daily.update_strategies_clone_swap swapEnvNoNotebook
      "https://github.com/o/r.git" "main" "tok" ["tmp"] ["home", "OriON"] "STRATEGIES").res =
      Except.ok ⟨false, some (run_orion_daily.shortSha12 swapEnvNoNotebook.lsSo),
        some "No notebooks found in strategies repo", none⟩ ∧
    applyEvents (fun p => if p = ["home", "OriON", "STRATEGIES"] then some "old" else none)
      (run_orion_daily.update_strategies_clone_swap swapEnvNoNotebook
        "https://github.com/o/r.git" "main" "tok" ["tmp"] ["home", "OriON"] "STRATEGIES").trace
      ["home", "OriON", "STRATEGIES"] = some "old" := by
  have h := claim_C3 swapEnvNoNotebook "https://github.com/o/r.git" "main" "tok"
    ["tmp"] ["home", "OriON"] "STRATEGIES"
    rfl (by decide) (by decide) rfl rfl (by decide)
    (run_orion_daily.update_strategies_clone_swap swapEnvNoNotebook
      "https://github.com/o/r.git" "main" "tok" ["tmp"] ["home", "OriON"] "STRATEGIES") rfl
  refine ⟨h.1, ?_⟩
  have h4 := h.2.2.2 (fun p => if p = ["home", "OriON", "STRATEGIES"] then some "old" else none)
  simp only [List.cons_append, List.nil_append] at h4
  rw [h4]
  decide

/-- On the update path over an existing destination, the synchronizer
returns `updated=true` with the fresh backup name. -/
theorem swap_res_of_update_over_existing (env : SwapEnv) (repoUrl branch token : String)
    (tmpBase dstParent : List String) (dstName : String)
    (hls : env.lsRemoteOk = true)
    (hne : strTrim env.lsSo ≠ "")
    (hneq : run_orion_daily.localEqRemote (run_orion_daily.localShaOf env)
      (run_orion_daily.shortSha12 env.lsSo) = false)
    (hclone : env.cloneOk = true)
    (hsan : env.stagingHasIpynb = true)
    (hdst : env.dstExists = true) :
    (run_orion_daily.update_strategies_clone_swap env repoUrl branch token
      tmpBase dstParent dstName).res =
      Except.ok ⟨true, some (run_orion_daily.shortSha12 env.lsSo), none,
        some (findFreeBackup env.siblings (dstName ++ "_backup_" ++
          run_orion_daily.backupKey (run_orion_daily.localShaOf env) env.timeSec))⟩ := by
  simp only [run_orion_daily.update_strategies_clone_swap, hls, Bool.not_true,
    Bool.false_eq_true, if_false, if_neg hne, hneq, hclone, hsan, Bool.not_false,
    if_true, hdst]

/-- Claim C9: when a swap occurs over an existing destination, the backup
name returned is the first free candidate: it is derived from the
destination name and the previous revision (or the timestamp when no
previous revision is known), it does not collide with any existing
sibling, and every earlier candidate (with smaller numeric suffix) was
taken. -/
theorem claim_C9 (env : SwapEnv) (repoUrl branch token : String)
    (tmpBase dstParent : List String) (dstName : String)
    (hls : env.lsRemoteOk = true)
    (hne : strTrim env.lsSo ≠ "")
    (hneq : run_orion_daily.localEqRemote (run_orion_daily.localShaOf env)
      (run_orion_daily.shortSha12 env.lsSo) = false)
    (hclone : env.cloneOk = true)
    (hsan : env.stagingHasIpynb = true)
    (hdst : env.dstExists = true) :
    ∀ out : SwapOut,
    run_orion_daily.update_strategies_clone_swap env repoUrl branch token tmpBase dstParent dstName
      = out →
    out.res = Except.ok ⟨true, some (run_orion_daily.shortSha12 env.lsSo), none,
      some (findFreeBackup env.siblings (dstName ++ "_backup_" ++
        run_orion_daily.backupKey (run_orion_daily.localShaOf env) env.timeSec))⟩ ∧
    findFreeBackup env.siblings (dstName ++ "_backup_" ++
      run_orion_daily.backupKey (run_orion_daily.localShaOf env) env.timeSec) ∉ env.siblings ∧
    ∃ j, findFreeBackup env.siblings (dstName ++ "_backup_" ++
        run_orion_daily.backupKey (run_orion_daily.localShaOf env) env.timeSec) =
        backupCandidate (dstName ++ "_backup_" ++
          run_orion_daily.backupKey (run_orion_daily.localShaOf env) env.timeSec) j ∧
      ∀ k < j, backupCandidate (dstName ++ "_backup_" ++
        run_orion_daily.backupKey (run_orion_daily.localShaOf env) env.timeSec) k ∈ env.siblings := by
  intro out hout
  have happ : (run_orion_daily.update_strategies_clone_swap env repoUrl branch token
      tmpBase dstParent dstName).res =
      Except.ok ⟨true, some (run_orion_daily.shortSha12 env.lsSo), none,
        some (findFreeBackup env.siblings (dstName ++ "_backup_" ++
          run_orion_daily.backupKey (run_orion_daily.localShaOf env) env.timeSec))⟩ := by
    simp only [run_orion_daily.update_strategies_clone_swap, hls, Bool.not_true,
      Bool.false_eq_true, if_false, if_neg hne, hneq, hclone, hsan, Bool.not_false,
      if_true, hdst]
  refine ⟨by rw [← hout]; exact happ, findFreeBackup_not_mem _ _, ?_⟩
  rcases findFreeBackup_spec env.siblings (dstName ++ "_backup_" ++
    run_orion_daily.backupKey (run_orion_daily.localShaOf env) env.timeSec) with ⟨j, heq, _, hmin⟩
  exact ⟨j, heq, hmin⟩

/-- A concrete environment for a swap over an existing destination whose
previous revision is `aaaaaaaaaaaa`, where the derived backup name and
its `_1` variant already exist among the siblings. -/
def swapEnvBackup : SwapEnv :=
  ⟨true, "bbbbbbbbbbbbcafe  refs/heads/main", "", true, true, true, "aaaaaaaaaaaa", false,
   true, "", "", true,
   ["STRATEGIES_backup_aaaaaaaaaaaa", "STRATEGIES_backup_aaaaaaaaaaaa_1"], 1700000000⟩

/-- Claim C9, witness: the theorem applied to `swapEnvBackup`; the chosen
backup name is the first free candidate `STRATEGIES_backup_aaaaaaaaaaaa_2`. -/
theorem claim_C9_witness :
    (run_orion_daily.update_strategies_clone_swap swapEnvBackup
      "https://github.com/o/r.git" "main" "tok" ["tmp"] ["home", "OriON"] "STRATEGIES").res =
      Except.ok ⟨true, some (run_orion_daily.shortSha12 swapEnvBackup.lsSo), none,
        some (findFreeBackup swapEnvBackup.siblings ("STRATEGIES" ++ "_backup_" ++
          run_orion_daily.backupKey (run_orion_daily.localShaOf swapEnvBackup)
            swapEnvBackup.timeSec))⟩ ∧
    findFreeBackup swapEnvBackup.siblings ("STRATEGIES" ++ "_backup_" ++
      run_orion_daily.backupKey (run_orion_daily.localShaOf swapEnvBackup)
        swapEnvBackup.timeSec) ∉ swapEnvBackup.siblings ∧
    findFreeBackup swapEnvBackup.siblings ("STRATEGIES" ++ "_backup_" ++
      run_orion_daily.backupKey (run_orion_daily.localShaOf swapEnvBackup)
        swapEnvBackup.timeSec) = "STRATEGIES_backup_aaaaaaaaaaaa_2" := by
  have h := claim_C9 swapEnvBackup "https://github.com/o/r.git" "main" "tok"
    ["tmp"] ["home", "OriON"] "STRATEGIES"
    rfl (by decide) (by decide) rfl rfl rfl
    (run_orion_daily.update_strategies_clone_swap swapEnvBackup
      "https://github.com/o/r.git" "main" "tok" ["tmp"] ["home", "OriON"] "STRATEGIES") rfl
  exact ⟨h.1, h.2.1, by decide⟩

theorem applyEvents_cloneDepth1 (b : Bool) (fs : FsState) (url : String) (p : List String) :
    applyEvents fs (cloneDepth1Trace b url p) p = some ("clone:" ++ url) := by
  rcases b with _ | _ <;>
    simp [cloneDepth1Trace, applyEvents, applyEvent]

/-- Claim C1, counterexample.  At the observation point between the two
renames (the prefix of length 2 of the swap trace: clone to staging,
rename destination to backup), the destination path holds neither the
previous tree (`"old"`) nor the new tree: it is momentarily absent, so
the claim's "at every observation point ... either the complete previous
tree or the complete new tree" is false as stated. -/
theorem claim_C1_cex :
    applyEvents (fun p => if p = ["home", "OriON", "STRATEGIES"] then some "old" else none)
      ((run_orion_daily.update_strategies_clone_swap swapEnvBackup
        "https://github.com/o/r.git" "main" "tok" ["tmp"] ["home", "OriON"] "STRATEGIES").trace.take 2)
      ["home", "OriON", "STRATEGIES"] = none ∧
    (fun p => if p = ["home", "OriON", "STRATEGIES"] then some "old" else none)
      ["home", "OriON", "STRATEGIES"] = some "old" ∧
    (none : Option String) ≠ some "old" ∧
    ∀ v : String, (none : Option String) ≠ some ("clone:" ++ v) := by
  refine ⟨by decide, by decide, by decide, fun v h => Option.noConfusion h⟩

/-- Claim C1 (amended): during a swap over an existing destination, the
destination path is written only by the two directory renames (old
destination to backup, then staging to destination) — no copy or other
write ever targets it — and at every observation point the destination
holds the complete previous tree, the complete new cloned tree, or (only
in the window between the two renames) no tree at all; it is never a
partially populated directory. -/
theorem claim_C1 (env : SwapEnv) (repoUrl branch token : String)
    (tmpBase dstParent : List String) (dstName : String)
    (hls : env.lsRemoteOk = true)
    (hne : strTrim env.lsSo ≠ "")
    (hneq : run_orion_daily.localEqRemote (run_orion_daily.localShaOf env)
      (run_orion_daily.shortSha12 env.lsSo) = false)
    (hclone : env.cloneOk = true)
    (hsan : env.stagingHasIpynb = true)
    (hdst : env.dstExists = true)
    (htb : tmpBase ≠ dstParent) :
    ∀ out : SwapOut,
    run_orion_daily.update_strategies_clone_swap env repoUrl branch token tmpBase dstParent dstName
      = out →
    out.trace.filter (fun e => e.writesTo (dstParent ++ [dstName])) =
      [FsEvent.move (dstParent ++ [dstName])
        (dstParent ++ [findFreeBackup env.siblings (dstName ++ "_backup_" ++
          run_orion_daily.backupKey (run_orion_daily.localShaOf env) env.timeSec)]),
       FsEvent.move (tmpBase ++ ["orion_strategies_" ++ run_orion_daily.shortSha12 env.lsSo ++
         "_" ++ natRepr env.timeSec]) (dstParent ++ [dstName])] ∧
    ∀ (fs : FsState) (k : Nat),
      applyEvents fs (out.trace.take k) (dstParent ++ [dstName]) = fs (dstParent ++ [dstName]) ∨
      applyEvents fs (out.trace.take k) (dstParent ++ [dstName]) = none ∨
      applyEvents fs (out.trace.take k) (dstParent ++ [dstName]) =
        some ("clone:" ++ run_orion_daily.with_token_https repoUrl token) := by
  intro out hout
  have happ : run_orion_daily.update_strategies_clone_swap env repoUrl branch token
      tmpBase dstParent dstName =
      ⟨Except.ok ⟨true, some (run_orion_daily.shortSha12 env.lsSo), none,
        some (findFreeBackup env.siblings (dstName ++ "_backup_" ++
          run_orion_daily.backupKey (run_orion_daily.localShaOf env) env.timeSec))⟩,
       cloneDepth1Trace env.tmpExists (run_orion_daily.with_token_https repoUrl token)
          (tmpBase ++ ["orion_strategies_" ++ run_orion_daily.shortSha12 env.lsSo ++ "_" ++
            natRepr env.timeSec]) ++
        [FsEvent.move (dstParent ++ [dstName])
          (dstParent ++ [findFreeBackup env.siblings (dstName ++ "_backup_" ++
            run_orion_daily.backupKey (run_orion_daily.localShaOf env) env.timeSec)]),
         FsEvent.move (tmpBase ++ ["orion_strategies_" ++ run_orion_daily.shortSha12 env.lsSo ++
           "_" ++ natRepr env.timeSec]) (dstParent ++ [dstName])]⟩ := by
    simp only [run_orion_daily.update_strategies_clone_swap, hls, Bool.not_true,
      Bool.false_eq_true, if_false, if_neg hne, hneq, hclone, hsan, Bool.not_false,
      if_true, hdst]
  have hbne : findFreeBackup env.siblings (dstName ++ "_backup_" ++
      run_orion_daily.backupKey (run_orion_daily.localShaOf env) env.timeSec) ≠ dstName := by
    intro hc
    have hlen := findFreeBackup_length env.siblings (dstName ++ "_backup_" ++
      run_orion_daily.backupKey (run_orion_daily.localShaOf env) env.timeSec)
    rw [hc] at hlen
    rw [String.length_append, String.length_append] at hlen
    have h8 : ("_backup_" : String).length = 8 := rfl
    omega
  have htd : tmpBase ++ ["orion_strategies_" ++ run_orion_daily.shortSha12 env.lsSo ++ "_" ++
      natRepr env.timeSec] ≠ dstParent ++ [dstName] :=
    path_ne_of_parent_ne _ _ htb
  have hbd : dstParent ++ [findFreeBackup env.siblings (dstName ++ "_backup_" ++
      run_orion_daily.backupKey (run_orion_daily.localShaOf env) env.timeSec)] ≠
      dstParent ++ [dstName] :=
    path_ne_of_name_ne dstParent hbne
  have hbt : dstParent ++ [findFreeBackup env.siblings (dstName ++ "_backup_" ++
      run_orion_daily.backupKey (run_orion_daily.localShaOf env) env.timeSec)] ≠
      tmpBase ++ ["orion_strategies_" ++ run_orion_daily.shortSha12 env.lsSo ++ "_" ++
        natRepr env.timeSec] :=
    path_ne_of_parent_ne _ _ (Ne.symm htb)
  have hpre : ∀ e ∈ cloneDepth1Trace env.tmpExists
      (run_orion_daily.with_token_https repoUrl token)
      (tmpBase ++ ["orion_strategies_" ++ run_orion_daily.shortSha12 env.lsSo ++ "_" ++
        natRepr env.timeSec]),
      e.writesTo (dstParent ++ [dstName]) = false := by
    intro e he
    rcases mem_cloneDepth1Trace _ _ _ _ he with h1 | h1 <;> subst h1 <;>
      simp [FsEvent.writesTo, htd]
  rw [← hout, happ]
  constructor
  · rw [List.filter_append]
    have h1 : (cloneDepth1Trace env.tmpExists (run_orion_daily.with_token_https repoUrl token)
        (tmpBase ++ ["orion_strategies_" ++ run_orion_daily.shortSha12 env.lsSo ++ "_" ++
          natRepr env.timeSec])).filter
        (fun e => e.writesTo (dstParent ++ [dstName])) = [] :=
      List.filter_eq_nil_iff.mpr (fun e he => by rw [hpre e he]; exact Bool.false_ne_true)
    rw [h1, List.nil_append]
    simp [FsEvent.writesTo]
  · intro fs k
    exact swap_prefix_states fs (dstParent ++ [dstName])
      (tmpBase ++ ["orion_strategies_" ++ run_orion_daily.shortSha12 env.lsSo ++ "_" ++
        natRepr env.timeSec])
      (dstParent ++ [findFreeBackup env.siblings (dstName ++ "_backup_" ++
        run_orion_daily.backupKey (run_orion_daily.localShaOf env) env.timeSec)])
      ("clone:" ++ run_orion_daily.with_token_https repoUrl token)
      (cloneDepth1Trace env.tmpExists (run_orion_daily.with_token_https repoUrl token)
        (tmpBase ++ ["orion_strategies_" ++ run_orion_daily.shortSha12 env.lsSo ++ "_" ++
          natRepr env.timeSec]))
      htd hbd hbt hpre (applyEvents_cloneDepth1 _ _ _ _) k

/-- Claim C1, witness: the amended theorem applied to `swapEnvBackup`; the
destination's tree after the complete trace is the freshly cloned tree. -/
theorem claim_C1_witness :
    ((run_orion_daily.update_strategies_clone_swap swapEnvBackup
      "https://github.com/o/r.git" "main" "tok" ["tmp"] ["home", "OriON"] "STRATEGIES").trace.filter
        (fun e => e.writesTo (["home", "OriON"] ++ ["STRATEGIES"]))).length = 2 ∧
    (applyEvents (fun p => if p = ["home", "OriON", "STRATEGIES"] then some "old" else none)
      ((run_orion_daily.update_strategies_clone_swap swapEnvBackup
        "https://github.com/o/r.git" "main" "tok" ["tmp"] ["home", "OriON"] "STRATEGIES").trace.take 3)
      (["home", "OriON"] ++ ["STRATEGIES"]) =
        (fun p => if p = ["home", "OriON", "STRATEGIES"] then some "old" else none)
          (["home", "OriON"] ++ ["STRATEGIES"]) ∨
     applyEvents (fun p => if p = ["home", "OriON", "STRATEGIES"] then some "old" else none)
      ((run_orion_daily.update_strategies_clone_swap swapEnvBackup
        "https://github.com/o/r.git" "main" "tok" ["tmp"] ["home", "OriON"] "STRATEGIES").trace.take 3)
      (["home", "OriON"] ++ ["STRATEGIES"]) = none ∨
     applyEvents (fun p => if p = ["home", "OriON", "STRATEGIES"] then some "old" else none)
      ((run_orion_daily.update_strategies_clone_swap swapEnvBackup
        "https://github.com/o/r.git" "main" "tok" ["tmp"] ["home", "OriON"] "STRATEGIES").trace.take 3)
      (["home", "OriON"] ++ ["STRATEGIES"]) =
        some ("clone:" ++ run_orion_daily.with_token_https "https://github.com/o/r.git" "tok")) := by
  have h := claim_C1 swapEnvBackup "https://github.com/o/r.git" "main" "tok"
    ["tmp"] ["home", "OriON"] "STRATEGIES"
    rfl (by decide) (by decide) rfl rfl rfl (by decide)
    (run_orion_daily.update_strategies_clone_swap swapEnvBackup
      "https://github.com/o/r.git" "main" "tok" ["tmp"] ["home", "OriON"] "STRATEGIES") rfl
  exact ⟨by rw [h.1]; rfl,
    h.2 (fun p => if p = ["home", "OriON", "STRATEGIES"] then some "old" else none) 3⟩

/-- A concrete environment with an existing destination that has no `.git`
metadata. -/
def swapEnvNoGit : SwapEnv :=
  ⟨true, "bbbbbbbbbbbbcafe  refs/heads/main", "", true, false, false, "", false,
   true, "", "", true, [], 5⟩

/-- Claim C4, counterexample.  With an existing destination that has no
version-control metadata, swap-mode synchronization does not fail: it
proceeds with the update (`updated=true`, no error), backing up the old
directory under a timestamp-derived name — contradicting the claimed
fatal precondition error. -/
theorem claim_C4_cex :
    (run_orion_daily.update_strategies_clone_swap swapEnvNoGit
      "https://github.com/o/r.git" "main" "tok" ["tmp"] ["home", "OriON"] "STRATEGIES").res =
      Except.ok ⟨true, some "bbbbbbbbbbbb", none, some "STRATEGIES_backup_5"⟩ := by
  decide

/-- Claim C4 (amended): in swap mode a destination without version-control
metadata is not an error — `update_strategies_clone_swap` treats the
local revision as unknown and proceeds with the update, creating a
backup keyed by the timestamp; the fatal error
`Destination exists but not a git repo` is raised only by the non-swap
routine `git_ops.ensure_repo_checkout`. -/
theorem claim_C4 :
    (∀ (env : SwapEnv) (repoUrl branch token : String) (tmpBase dstParent : List String)
      (dstName : String),
      env.lsRemoteOk = true → strTrim env.lsSo ≠ "" → env.cloneOk = true →
      env.stagingHasIpynb = true → env.dstExists = true → env.dstGitExists = false →
      (run_orion_daily.update_strategies_clone_swap env repoUrl branch token
        tmpBase dstParent dstName).res =
        Except.ok ⟨true, some (run_orion_daily.shortSha12 env.lsSo), none,
          some (findFreeBackup env.siblings
            (dstName ++ "_backup_" ++ natRepr env.timeSec))⟩) ∧
    (∀ (e : EnsureEnv) (repoUrl branch : String) (token : Option String)
      (dstPath : List String) (dstPathStr : String),
      e.dstExists = true → e.dstGitExists = false →
      git_ops.ensure_repo_checkout e repoUrl branch token dstPath dstPathStr =
        (Except.error ("Destination exists but not a git repo: " ++ dstPathStr), [])) := by
  constructor
  · intro env repoUrl branch token tmpBase dstParent dstName hls hne hclone hsan hdst hgit
    have hsha : run_orion_daily.localShaOf env = none := by
      simp [run_orion_daily.localShaOf, hgit]
    have hkey : run_orion_daily.backupKey (run_orion_daily.localShaOf env) env.timeSec =
        natRepr env.timeSec := by
      rw [hsha]
      rfl
    have hneq : run_orion_daily.localEqRemote (run_orion_daily.localShaOf env)
        (run_orion_daily.shortSha12 env.lsSo) = false := by
      rw [hsha]
      rfl
    have h := swap_res_of_update_over_existing env repoUrl branch token tmpBase dstParent dstName
      hls hne hneq hclone hsan hdst
    rw [h, hkey]
  · intro e repoUrl branch token dstPath dstPathStr hdst hgit
    simp only [git_ops.ensure_repo_checkout, hdst, hgit, Bool.not_true, Bool.not_false,
      Bool.false_eq_true, if_false, if_true]

/-- Claim C4, witness: both halves of the amended theorem at concrete inputs. -/
theorem claim_C4_witness :
    (run_orion_daily.update_strategies_clone_swap swapEnvNoGit
      "https://github.com/o/r.git" "main" "tok" ["tmp"] ["home", "OriON"] "STRATEGIES").res =
      Except.ok ⟨true, some (run_orion_daily.shortSha12 swapEnvNoGit.lsSo), none,
        some (findFreeBackup swapEnvNoGit.siblings
          ("STRATEGIES" ++ "_backup_" ++ natRepr swapEnvNoGit.timeSec))⟩ ∧
    git_ops.ensure_repo_checkout ⟨true, false, true, "", "", true, "", "", true, "", "",
        true, "", ""⟩ "https://github.com/o/r.git" "main" none
      ["home", "OriON", "STRATEGIES"] "/home/OriON/STRATEGIES" =
      (Except.error ("Destination exists but not a git repo: " ++ "/home/OriON/STRATEGIES"), []) :=
  ⟨claim_C4.1 swapEnvNoGit "https://github.com/o/r.git" "main" "tok" ["tmp"] ["home", "OriON"]
    "STRATEGIES" rfl (by decide) rfl rfl rfl rfl,
   claim_C4.2 ⟨true, false, true, "", "", true, "", "", true, "", "", true, "", ""⟩
    "https://github.com/o/r.git" "main" none ["home", "OriON", "STRATEGIES"]
    "/home/OriON/STRATEGIES" rfl rfl⟩

/-- A concrete publish environment whose staged diff is empty. -/
def pushEnvEmptyDiff : PushEnv :=
  ⟨true, "", "", true, true, false, false, true, true, "", "", true, "", true, "", "",
   1700000000, "2026-10-12T00:00:00Z"⟩

/-- A concrete run environment with clone-swap disabled and the strategies
destination absent: the claimed non-atomic sync path would have to clone. -/
def mainEnvNoSwap : MainEnv :=
  { cfgOk := true, tokenOk := true, token := "tok",
    strategiesRepo := "https://github.com/o/s.git", strategiesBranch := "main",
    resultsRepo := "https://github.com/o/r.git", resultsBranch := "main",
    resultsLayout := "root", resultsSubdir := "",
    useCloneSwap := false,
    swap := { swapEnvUpToDate with dstExists := false },
    secretsOk := false,
    cracenNbExists := true, cracenCode := 0, cracenSo := "", cracenSe := "",
    finalExists := true, notebooks := ["CRACEN.ipynb"],
    depCode := fun _ => 0, depSo := fun _ => "", depSe := fun _ => "",
    push := pushEnvEmptyDiff }

/-- Claim C5, counterexample.  With clone-swap disabled and the destination
absent, `main()` performs no version-control or filesystem operation at
all on the strategies checkout (empty sync trace — in particular no
shallow clone into the destination) and records `updated=false`; the run
does not invoke the non-atomic fetch/checkout/pull path. -/
theorem claim_C5_cex :
    (run_orion_daily.mainRun mainEnvNoSwap ["tmp"] ["home", "OriON"]).syncTrace = [] ∧
    (run_orion_daily.mainRun mainEnvNoSwap
      ["tmp"] ["home", "OriON"]).status.github.strategies_updated = some false ∧
    mainEnvNoSwap.useCloneSwap = false ∧
    mainEnvNoSwap.swap.dstExists = false := by
  refine ⟨by decide, by decide, rfl, rfl⟩

/-- Claim C5 (amended): when clone-swap is disabled by configuration, the
run does not synchronize the strategies checkout at all: it performs no
version-control or filesystem operation (empty sync trace) and records
`updated=false` with no error.  The described non-atomic path is
implemented by `git_ops.ensure_repo_checkout` — which `main()` never
invokes — and, as a standalone routine, behaves as described: if the
destination is absent it shallow-clones directly into it; otherwise it
fetches, checks out, then pulls, returning the first failing step's
error with `updated=false`. -/
theorem claim_C5 :
    (∀ (env : MainEnv) (tmpBase orionHome : List String),
      env.cfgOk = true → env.tokenOk = true → env.useCloneSwap = false →
      (run_orion_daily.mainRun env tmpBase orionHome).syncTrace = [] ∧
      (run_orion_daily.mainRun env tmpBase orionHome).status.github.strategies_updated =
        some false ∧
      (run_orion_daily.mainRun env tmpBase orionHome).status.github.strategies_error = none) ∧
    (∀ (e : EnsureEnv) (url branch : String) (tok : Option String) (p : List String)
      (ps : String),
      (e.dstExists = false → e.cloneOk = true →
        git_ops.ensure_repo_checkout e url branch tok p ps =
          (Except.ok ⟨true, none⟩, [FsEvent.gitClone (git_ops.with_token_https url tok) p])) ∧
      (e.dstExists = true → e.dstGitExists = true → e.fetchOk = false →
        git_ops.ensure_repo_checkout e url branch tok p ps =
          (Except.ok ⟨false, some (pyOr (strTrim e.fetchSe) (strTrim e.fetchSo))⟩,
           [FsEvent.gitFetch branch])) ∧
      (e.dstExists = true → e.dstGitExists = true → e.fetchOk = true → e.checkoutOk = false →
        git_ops.ensure_repo_checkout e url branch tok p ps =
          (Except.ok ⟨false, some (pyOr (strTrim e.checkoutSe) (strTrim e.checkoutSo))⟩,
           [FsEvent.gitFetch branch, FsEvent.gitCheckout branch])) ∧
      (e.dstExists = true → e.dstGitExists = true → e.fetchOk = true → e.checkoutOk = true →
        e.pullOk = false →
        git_ops.ensure_repo_checkout e url branch tok p ps =
          (Except.ok ⟨false, some (pyOr (strTrim e.pullSe) (strTrim e.pullSo))⟩,
           [FsEvent.gitFetch branch, FsEvent.gitCheckout branch, FsEvent.gitPull branch])) ∧
      (e.dstExists = true → e.dstGitExists = true → e.fetchOk = true → e.checkoutOk = true →
        e.pullOk = true →
        git_ops.ensure_repo_checkout e url branch tok p ps =
          (Except.ok ⟨true, none⟩,
           [FsEvent.gitFetch branch, FsEvent.gitCheckout branch, FsEvent.gitPull branch]))) := by
  constructor
  · intro env tmpBase orionHome hcfg htok hsw
    have hsp : ∀ g : GithubStatus, run_orion_daily.syncPhase env tmpBase orionHome g =
        ({ g with strategies_updated := some false }, []) := by
      intro g
      simp [run_orion_daily.syncPhase, hsw]
    simp only [run_orion_daily.mainRun, hcfg, htok, Bool.not_true, Bool.false_eq_true,
      if_false, hsp]
    split_ifs <;> simp [run_orion_daily.initStatus]
  · intro e url branch tok p ps
    refine ⟨?_, ?_, ?_, ?_, ?_⟩
    · intro hd hc
      simp only [git_ops.ensure_repo_checkout, hd, hc, Bool.not_false, Bool.not_true,
        Bool.false_eq_true, if_true, if_false]
    · intro hd hg hf
      simp only [git_ops.ensure_repo_checkout, hd, hg, hf, Bool.not_false, Bool.not_true,
        Bool.false_eq_true, if_true, if_false]
    · intro hd hg hf hco
      simp only [git_ops.ensure_repo_checkout, hd, hg, hf, hco, Bool.not_false, Bool.not_true,
        Bool.false_eq_true, if_true, if_false]
    · intro hd hg hf hco hp
      simp only [git_ops.ensure_repo_checkout, hd, hg, hf, hco, hp, Bool.not_false,
        Bool.not_true, Bool.false_eq_true, if_true, if_false]
    · intro hd hg hf hco hp
      simp only [git_ops.ensure_repo_checkout, hd, hg, hf, hco, hp, Bool.not_false,
        Bool.not_true, Bool.false_eq_true, if_true, if_false]

/-- Claim C5, witness: the amended theorem applied to `mainEnvNoSwap` and a
concrete fetch-failure environment. -/
theorem claim_C5_witness :
    (run_orion_daily.mainRun mainEnvNoSwap ["tmp"] ["home", "OriON"]).syncTrace = [] ∧
    git_ops.ensure_repo_checkout ⟨true, true, true, "", "", false, "", "net down", true, "", "",
        true, "", ""⟩ "https://github.com/o/r.git" "main" none
      ["home", "OriON", "STRATEGIES"] "/home/OriON/STRATEGIES" =
      (Except.ok ⟨false, some (pyOr (strTrim "net down") (strTrim ""))⟩,
       [FsEvent.gitFetch "main"]) :=
  ⟨(claim_C5.1 mainEnvNoSwap ["tmp"] ["home", "OriON"] rfl rfl rfl).1,
   (claim_C5.2 ⟨true, true, true, "", "", false, "", "net down", true, "", "", true, "", ""⟩
     "https://github.com/o/r.git" "main" none ["home", "OriON", "STRATEGIES"]
     "/home/OriON/STRATEGIES").2.1 rfl rfl rfl⟩

/-- Claim C6: if the primary job exits non-zero, or exits zero but its
declared artifact is absent, the run records the failure
(`cracen.ok=false` with an error message), executes no dependent job
(the strategies map of the final status document is empty), and the
process exit code is 1. -/
theorem claim_C6 (env : MainEnv) (tmpBase orionHome : List String)
    (hcfg : env.cfgOk = true) (htok : env.tokenOk = true) (hsec : env.secretsOk = true)
    (hnb : env.cracenNbExists = true)
    (hfail : env.cracenCode ≠ 0 ∨ (env.cracenCode = 0 ∧ env.finalExists = false)) :
    (run_orion_daily.mainRun env tmpBase orionHome).exitCode = 1 ∧
    (run_orion_daily.mainRun env tmpBase orionHome).status.strategies = [] ∧
    (run_orion_daily.mainRun env tmpBase orionHome).status.cracen.ok = false ∧
    (run_orion_daily.mainRun env tmpBase orionHome).status.cracen.error.isSome = true := by
  rcases hfail with hc | ⟨hc, hf⟩
  · simp [run_orion_daily.mainRun, hcfg, htok, hsec, hnb, hc, run_orion_daily.initStatus]
  · simp [run_orion_daily.mainRun, hcfg, htok, hsec, hnb, hc, hf, run_orion_daily.initStatus]

/-- A concrete run environment in which the primary job exits 0 but the
declared artifact is absent. -/
def mainEnvCracenFail : MainEnv :=
  { cfgOk := true, tokenOk := true, token := "tok",
    strategiesRepo := "https://github.com/o/s.git", strategiesBranch := "main",
    resultsRepo := "https://github.com/o/r.git", resultsBranch := "main",
    resultsLayout := "root", resultsSubdir := "",
    useCloneSwap := false, swap := swapEnvUpToDate,
    secretsOk := true,
    cracenNbExists := true, cracenCode := 0, cracenSo := "", cracenSe := "",
    finalExists := false,
    notebooks := ["CRACEN.ipynb", "ALPHA.ipynb", "BETA.ipynb"],
    depCode := fun _ => 0, depSo := fun _ => "", depSe := fun _ => "",
    push := pushEnvEmptyDiff }

/-- Claim C6, witness: the theorem applied to `mainEnvCracenFail`. -/
theorem claim_C6_witness :
    (run_orion_daily.mainRun mainEnvCracenFail ["tmp"] ["home", "OriON"]).exitCode = 1 ∧
    (run_orion_daily.mainRun mainEnvCracenFail ["tmp"] ["home", "OriON"]).status.strategies = [] ∧
    (run_orion_daily.mainRun mainEnvCracenFail
      ["tmp"] ["home", "OriON"]).status.cracen.ok = false ∧
    (run_orion_daily.mainRun mainEnvCracenFail
      ["tmp"] ["home", "OriON"]).status.cracen.error.isSome = true :=
  claim_C6 mainEnvCracenFail ["tmp"] ["home", "OriON"] rfl rfl rfl rfl (Or.inr ⟨rfl, rfl⟩)

/-- Claim C7: after the primary job succeeds (exit 0 and artifact present),
the dependent jobs are exactly the discovered notebooks minus the
primary, sorted lexicographically; each is executed once with its result
recorded independently in order (the strategies map equals the map over
that list, for every outcome oracle — so one job's failure cannot affect
whether later jobs run), the executed list is sorted, it has no
duplicates when discovery has none, and each entry's `ok` is true
exactly when that job's exit code is 0. -/
theorem claim_C7 (env : MainEnv) (tmpBase orionHome : List String)
    (hcfg : env.cfgOk = true) (htok : env.tokenOk = true) (hsec : env.secretsOk = true)
    (hnb : env.cracenNbExists = true)
    (hcode : env.cracenCode = 0) (hfin : env.finalExists = true) :
    (run_orion_daily.mainRun env tmpBase orionHome).status.strategies =
      ((List.insertionSort strLeP env.notebooks).filter
        (fun n => !(n == "CRACEN.ipynb"))).map
        (fun n => (run_orion_daily.stemOf n, run_orion_daily.depJobInfo env n)) ∧
    List.Pairwise strLeP ((List.insertionSort strLeP env.notebooks).filter
      (fun n => !(n == "CRACEN.ipynb"))) ∧
    (env.notebooks.Nodup → ((List.insertionSort strLeP env.notebooks).filter
      (fun n => !(n == "CRACEN.ipynb"))).Nodup) ∧
    (∀ n : String, ((run_orion_daily.depJobInfo env n).ok = true ↔ env.depCode n = 0)) := by
  refine ⟨?_, ?_, ?_, ?_⟩
  · simp [run_orion_daily.mainRun, hcfg, htok, hsec, hnb, hcode, hfin,
      run_orion_daily.depEntries]
  · exact List.Pairwise.filter _ (List.sorted_insertionSort strLeP env.notebooks)
  · intro hnd
    exact List.Nodup.filter _ ((List.perm_insertionSort strLeP env.notebooks).symm.nodup hnd)
  · intro n
    by_cases h : env.depCode n = 0 <;> simp [run_orion_daily.depJobInfo, h]

/-- A concrete run environment in which the primary succeeds, dependent
`ALPHA.ipynb` fails with exit 1, and dependent `BETA.ipynb` succeeds. -/
def mainEnvDeps : MainEnv :=
  { cfgOk := true, tokenOk := true, token := "tok",
    strategiesRepo := "https://github.com/o/s.git", strategiesBranch := "main",
    resultsRepo := "https://github.com/o/r.git", resultsBranch := "main",
    resultsLayout := "root", resultsSubdir := "",
    useCloneSwap := false, swap := swapEnvUpToDate,
    secretsOk := true,
    cracenNbExists := true, cracenCode := 0, cracenSo := "", cracenSe := "",
    finalExists := true,
    notebooks := ["BETA.ipynb", "CRACEN.ipynb", "ALPHA.ipynb"],
    depCode := fun n => if n == "ALPHA.ipynb" then 1 else 0,
    depSo := fun _ => "", depSe := fun _ => "boom",
    push := pushEnvEmptyDiff }

/-- Claim C7, witness: the theorem applied to `mainEnvDeps`; the failing
`ALPHA` entry is recorded and does not stop `BETA` from running. -/
theorem claim_C7_witness :
    (run_orion_daily.mainRun mainEnvDeps ["tmp"] ["home", "OriON"]).status.strategies =
      ((List.insertionSort strLeP mainEnvDeps.notebooks).filter
        (fun n => !(n == "CRACEN.ipynb"))).map
        (fun n => (run_orion_daily.stemOf n, run_orion_daily.depJobInfo mainEnvDeps n)) ∧
    ((run_orion_daily.depJobInfo mainEnvDeps "ALPHA.ipynb").ok = true ↔
      mainEnvDeps.depCode "ALPHA.ipynb" = 0) ∧
    ((run_orion_daily.depJobInfo mainEnvDeps "BETA.ipynb").ok = true ↔
      mainEnvDeps.depCode "BETA.ipynb" = 0) := by
  have h := claim_C7 mainEnvDeps ["tmp"] ["home", "OriON"] rfl rfl rfl rfl rfl rfl
  exact ⟨h.1, h.2.2.2 "ALPHA.ipynb", h.2.2.2 "BETA.ipynb"⟩

theorem gitCommit_not_mem_opt_rmtree (b : Bool) (p : List String) (m : String) :
    FsEvent.gitCommit m ∉ (if b then [FsEvent.rmtree p] else []) := by
  rcases b with _ | _ <;> simp

theorem gitCommit_not_mem_opt_copyTree (b : Bool) (a p : List String) (m : String) :
    FsEvent.gitCommit m ∉ (if b then [FsEvent.copyTree a p] else []) := by
  rcases b with _ | _ <;> simp

/-- Claim C8: for every publish call (with a successful clone and at least
one source directory present): if the staged diff is empty the result is
`pushed=false` with no commit identifier and no commit event ever occurs
in the trace; if the staged diff is non-empty (and the commit and
rev-parse commands succeed with non-empty output), the trace contains
the two bot-identity configuration events and the commit event, and the
commit identifier is returned in the result. -/
theorem claim_C8 (env : PushEnv) (url branch token : String)
    (tmpBase orionHome : List String) (layout subdir : String)
    (hclone : env.cloneOk = true)
    (hsrc : env.srcSignalsExists = true ∨ env.srcStatusExists = true) :
    ∀ (res : PushResult) (trace : List FsEvent),
    run_orion_daily.push_results_to_repo env url branch token tmpBase orionHome layout subdir
      = (res, trace) →
    (env.diffEmpty = true →
      res = ⟨false, none, none⟩ ∧ ∀ m : String, FsEvent.gitCommit m ∉ trace) ∧
    (env.diffEmpty = false → env.commitOk = true → env.revParseOk = true →
      strTrim env.revParseOut ≠ "" →
      res.commit = some (strTrim env.revParseOut) ∧
      FsEvent.gitConfig "user.name" "orion-bot" ∈ trace ∧
      FsEvent.gitConfig "user.email" "orion-bot@local" ∈ trace ∧
      FsEvent.gitCommit ("orion: update signals/status " ++ env.ts) ∈ trace) := by
  intro res trace hout
  have hsrc' : (!env.srcSignalsExists && !env.srcStatusExists) = false := by
    rcases hsrc with h | h <;> simp [h]
  constructor
  · intro hde
    simp only [run_orion_daily.push_results_to_repo, hclone, hsrc', hde, Bool.not_true,
      Bool.false_eq_true, if_false, if_true] at hout
    injection hout with h1 h2
    subst h1
    subst h2
    refine ⟨rfl, ?_⟩
    intro m hm
    simp only [List.mem_append, List.mem_cons, List.mem_singleton, List.not_mem_nil,
      or_false] at hm
    rcases hm with ((((h | h) | (h | h)) | (h | h)) | (h | h)) | h
    · exact FsEvent.noConfusion h
    · exact FsEvent.noConfusion h
    · exact absurd h (gitCommit_not_mem_opt_rmtree _ _ _)
    · exact absurd h (gitCommit_not_mem_opt_rmtree _ _ _)
    · exact absurd h (gitCommit_not_mem_opt_copyTree _ _ _ _)
    · exact absurd h (gitCommit_not_mem_opt_copyTree _ _ _ _)
    · exact FsEvent.noConfusion h
    · exact FsEvent.noConfusion h
    · exact FsEvent.noConfusion h
  · intro hde hcommit hrev htrim
    rcases hpush : env.pushOk with _ | _ <;>
      simp only [run_orion_daily.push_results_to_repo, hclone, hsrc', hde, hcommit, hpush,
        hrev, if_neg htrim, Bool.not_true, Bool.not_false, Bool.false_eq_true,
        Bool.true_eq_false, if_false, if_true] at hout <;>
      injection hout with h1 h2 <;> subst h1 <;> subst h2 <;>
      refine ⟨rfl, ?_, ?_, ?_⟩ <;> simp

/-- A concrete publish environment with a non-empty staged diff whose
commit and rev-parse succeed. -/
def pushEnvCommit : PushEnv :=
  ⟨true, "", "", true, true, false, false, false, true, "", "", true, "deadbeefcafe\n",
   true, "", "", 1700000000, "2026-10-12T00:00:00Z"⟩

/-- Claim C8, witness: the theorem applied to an empty-diff and a
non-empty-diff publish environment. -/
theorem claim_C8_witness :
    (run_orion_daily.push_results_to_repo pushEnvEmptyDiff "https://github.com/o/r.git" "main"
      "tok" ["tmp"] ["home", "OriON"] "root" "").1 = ⟨false, none, none⟩ ∧
    (run_orion_daily.push_results_to_repo pushEnvCommit "https://github.com/o/r.git" "main"
      "tok" ["tmp"] ["home", "OriON"] "root" "").1.commit =
      some (strTrim pushEnvCommit.revParseOut) ∧
    FsEvent.gitCommit ("orion: update signals/status " ++ pushEnvCommit.ts) ∈
      (run_orion_daily.push_results_to_repo pushEnvCommit "https://github.com/o/r.git" "main"
        "tok" ["tmp"] ["home", "OriON"] "root" "").2 := by
  have h1 := claim_C8 pushEnvEmptyDiff "https://github.com/o/r.git" "main" "tok"
    ["tmp"] ["home", "OriON"] "root" "" rfl (Or.inl rfl)
    (run_orion_daily.push_results_to_repo pushEnvEmptyDiff "https://github.com/o/r.git" "main"
      "tok" ["tmp"] ["home", "OriON"] "root" "").1
    (run_orion_daily.push_results_to_repo pushEnvEmptyDiff "https://github.com/o/r.git" "main"
      "tok" ["tmp"] ["home", "OriON"] "root" "").2 rfl
  have h2 := claim_C8 pushEnvCommit "https://github.com/o/r.git" "main" "tok"
    ["tmp"] ["home", "OriON"] "root" "" rfl (Or.inl rfl)
    (run_orion_daily.push_results_to_repo pushEnvCommit "https://github.com/o/r.git" "main"
      "tok" ["tmp"] ["home", "OriON"] "root" "").1
    (run_orion_daily.push_results_to_repo pushEnvCommit "https://github.com/o/r.git" "main"
      "tok" ["tmp"] ["home", "OriON"] "root" "").2 rfl
  have h2' := h2.2 rfl rfl rfl (by decide)
  exact ⟨(h1.1 rfl).1, h2'.1, h2'.2.2.2⟩
